import Mathlib

/-!
# Cart controller (`controllers/v1/public/CartController.js`)

A shallow embedding of the three request handlers `exports.create`,
`exports.getCart` and `exports.delete` over an explicit document store, and
the properties of the cart engine stated on it.

The store holds the two collections in insertion order (the order in which
`findOne` scans them) and the source of fresh `ObjectId`s.  Object ids are
natural numbers; quantities and amounts are JavaScript Numbers, that is
IEEE-754 doubles, added with the rounding of `+`.
-/

namespace CartController

/-! ## Numbers -/

/-- A JavaScript Number. Every finite IEEE-754 double is a whole multiple of
`2^-1074`, the smallest positive double, and `finite units` is the double
`units * 2^-1074`: the number one is `finite (2^1074)`, a half is
`finite (2^1073)`. The two zeros are not told apart. Powers of two are written
as shifts, `1 <<< n` for `2^n`. -/
inductive JsNumber where
  | finite (units : Int)
  | infinity (negative : Bool)
  | nan
deriving DecidableEq, Repr

/-- The position of the highest set bit of `m`, found by bisection from `lo`
upwards in steps of `2^(fuel-1)`, ..., `2`, `1`: with `fuel` 12 and `lo` 0 it is
the `e` with `2^e ≤ m < 2^(e+1)` for every positive `m` below `2^4096`. -/
def JsNumber.topBit (m : Nat) : Nat → Nat → Nat
  | 0, lo => lo
  | fuel + 1, lo =>
      if m >>> (lo + (1 <<< fuel)) = 0 then JsNumber.topBit m fuel lo
      else JsNumber.topBit m fuel (lo + (1 <<< fuel))

/-- The double nearest to the exact value `k * 2^-1074`, ties going to the even
significand of 53 bits. Below `2^53` units (the subnormals and the first
binade) every multiple is a double. Above, the magnitude `m` keeps its 53
leading bits `q`; the bits `r` cut off are compared with half a unit in the last
place. A magnitude of `2^1024` (that is `2^2098` units) or more after rounding
is an infinity. -/
def JsNumber.round (k : Int) : JsNumber :=
  let m := k.natAbs
  if m >>> 53 = 0 then JsNumber.finite k
  else
    let shift := JsNumber.topBit m 12 0 - 52
    let q := m >>> shift
    let r := m - (q <<< shift)
    let half := 1 <<< (shift - 1)
    let n := if r < half then q else if half < r then q + 1 else if q % 2 = 0 then q else q + 1
    let v := n <<< shift
    if v >>> 2098 = 0 then JsNumber.finite (if k < 0 then -(v : Int) else (v : Int))
    else JsNumber.infinity (decide (k < 0))

/-- The operator `+` on two Numbers (lines 38-39): the exact sum of two finite
doubles rounded to a double; infinities absorb, opposite infinities and `NaN`
give `NaN`. -/
def JsNumber.add : JsNumber → JsNumber → JsNumber
  | JsNumber.finite a, JsNumber.finite b => JsNumber.round (a + b)
  | JsNumber.finite _, JsNumber.infinity b => JsNumber.infinity b
  | JsNumber.infinity a, JsNumber.finite _ => JsNumber.infinity a
  | JsNumber.infinity a, JsNumber.infinity b =>
      if a = b then JsNumber.infinity a else JsNumber.nan
  | JsNumber.nan, _ => JsNumber.nan
  | _, JsNumber.nan => JsNumber.nan

instance : Add JsNumber := ⟨JsNumber.add⟩

/-- The Number a whole-number literal of a request body denotes. -/
def JsNumber.ofInt (n : Int) : JsNumber :=
  JsNumber.round (n * ((1 <<< 1074 : Nat) : Int))

instance (n : Nat) : OfNat JsNumber n := ⟨JsNumber.ofInt n⟩

/-- The exact value `k * 2^-1074` is itself a double: rounding leaves it as it
is. -/
def JsNumber.Exact (k : Int) : Prop :=
  JsNumber.round k = JsNumber.finite k

instance (k : Int) : Decidable (JsNumber.Exact k) := by
  unfold JsNumber.Exact; infer_instance

/-! ## Data model -/

/-- Modelled from the spec: the schema file `models/cartModel` is not among the
sources. A cart document has the generated `_id` and the two paths
`exports.create` writes at lines 17-20, the owning user and the contact email;
the timestamps play no part in the handlers and are left out. -/
structure Cart where
  _id : Nat
  user_id : Nat
  email : String
deriving DecidableEq, Repr

/-- Modelled from the spec: the schema file `models/cartItemsModel` is not among
the sources. A line item document has the generated `_id` and the six paths
`exports.create` writes at lines 29-36. -/
structure CartItem where
  _id : Nat
  cart_id : Nat
  product_id : Nat
  quantity : JsNumber
  amount : JsNumber
  total_amount : JsNumber
  image : String
deriving DecidableEq, Repr

/-- The document store: both collections in natural (insertion) order and the
next `ObjectId` the driver hands out. -/
structure Store where
  carts : List Cart
  cart_items : List CartItem
  next_id : Nat
deriving DecidableEq, Repr

/-- The store with no document in it. -/
def emptyStore : Store := { carts := [], cart_items := [], next_id := 0 }

/-- The values a property read can produce in the handlers. -/
inductive JsVal where
  | undefined
  | number (n : Int)
  | string (s : String)
  | itemList (xs : List CartItem)
deriving DecidableEq, Repr

/-- What a handler can throw: a runtime `TypeError`, the application's
`AppError`, or the rejection of a write by the database, each with its
message. -/
inductive Failure where
  | TypeError (message : String)
  | AppError (message : String)
  | MongoServerError (message : String)
deriving DecidableEq, Repr

/-! ## Request bodies -/

/-- The `cart_items` object of the body of `exports.create`. -/
structure CartItemsBody where
  product_id : Nat
  quantity : JsNumber
  amount : JsNumber
  total_amount : JsNumber
  image : Option String
deriving DecidableEq, Repr

/-- The body of `exports.create`: `{ user_id, email, cart_items }`. -/
structure CreateBody where
  user_id : Nat
  email : String
  cart_items : CartItemsBody
deriving DecidableEq, Repr

/-- One element of the `cart_items` array of the body of `exports.delete`. -/
structure ItemRef where
  _id : Nat
deriving DecidableEq, Repr

/-- The body of `exports.delete`: `{ user_id, cart_items }`. -/
structure DeleteBody where
  user_id : Nat
  cart_items : List ItemRef
deriving DecidableEq, Repr

/-! ## Store calls -/

/-- The call `Cart.findOne({ user_id })`: the first cart of that user, or `null`. -/
def Cart.findOne (s : Store) (user_id : Nat) : Option Cart :=
  s.carts.find? (fun c => c.user_id == user_id)

/-- The call `Cart.create({ user_id, email })`: a new document under a fresh id. -/
def Cart.create (s : Store) (user_id : Nat) (email : String) : Cart × Store :=
  let doc : Cart := { _id := s.next_id, user_id := user_id, email := email }
  (doc, { s with carts := s.carts ++ [doc], next_id := s.next_id + 1 })

/-- Property read `doc[path]` on a cart document: a path outside the document
reads as `undefined`. -/
def Cart.get (c : Cart) (path : String) : JsVal :=
  if path = "_id" then JsVal.number c._id
  else if path = "user_id" then JsVal.number c.user_id
  else if path = "email" then JsVal.string c.email
  else JsVal.undefined

/-- The call `CartItems.findOne({ product_id, cart_id })`: the first line item
with that product and that cart, or `null`. -/
def CartItems.findOne (s : Store) (product_id cart_id : Nat) : Option CartItem :=
  s.cart_items.find? (fun i => i.product_id == product_id && i.cart_id == cart_id)

/-- The call `CartItems.create({ cart_id, product_id, quantity, amount,
total_amount, image })`: a new document under a fresh id. -/
def CartItems.create (s : Store) (cart_id product_id : Nat)
    (quantity amount total_amount : JsNumber) (image : String) : CartItem × Store :=
  let doc : CartItem :=
    { _id := s.next_id, cart_id := cart_id, product_id := product_id,
      quantity := quantity, amount := amount, total_amount := total_amount,
      image := image }
  (doc, { s with cart_items := s.cart_items ++ [doc], next_id := s.next_id + 1 })

/-- Rewrite the first element of a list that satisfies `p`. -/
def updateOne (p : CartItem → Bool) (f : CartItem → CartItem) :
    List CartItem → List CartItem
  | [] => []
  | i :: rest => if p i then f i :: rest else i :: updateOne p f rest

/-- The call `cart_item.save()` after the assignments of lines 38-39: the two
modified paths, `quantity` and `total_amount`, are written to the stored
document with the `_id` of `doc`. -/
def CartItems.save (s : Store) (doc : CartItem) : Store :=
  let written := updateOne (fun i => i._id == doc._id)
    (fun i => { i with quantity := doc.quantity, total_amount := doc.total_amount })
    s.cart_items
  { s with cart_items := written }

/-- The call `CartItems.findOneAndRemove({ _id })`: the first line item with that
id is removed; nothing happens when there is none. -/
def CartItems.findOneAndRemove (s : Store) (_id : Nat) : Store :=
  { s with cart_items := s.cart_items.eraseP (fun i => i._id == _id) }

/-- One element of the array the aggregation resolves to: the cart's paths and
the joined `cart_items`. -/
structure CartAggregate where
  _id : Nat
  user_id : Nat
  email : String
  cart_items : List CartItem
deriving DecidableEq, Repr

/-- The pipeline `Cart.aggregate([{ $match: { user_id } }]).lookup({ from:
'cart_items', localField: '_id', foreignField: 'cart_id', as: 'cart_items' })`:
every cart of the user, each with the line items whose `cart_id` is its `_id`.
The collection `cart_items` is taken to be the one behind the `CartItems`
model. -/
def Cart.aggregate (s : Store) (user_id : Nat) : List CartAggregate :=
  (s.carts.filter (fun c => c.user_id == user_id)).map (fun c =>
    { _id := c._id, user_id := c.user_id, email := c.email,
      cart_items := s.cart_items.filter (fun i => i.cart_id == c._id) })

/-- Property read `arr[name]` on the array the aggregation resolves to: an
array carries `length`; any other name reads as `undefined`. -/
def aggregateGet (arr : List CartAggregate) (name : String) : JsVal :=
  if name = "length" then JsVal.number arr.length else JsVal.undefined

/-- The optional chain `v?.length`: `undefined` short-circuits, a list or a
string has a length, a number has none. -/
def optionalLength : JsVal → JsVal
  | JsVal.undefined => JsVal.undefined
  | JsVal.number _ => JsVal.undefined
  | JsVal.string s => JsVal.number s.length
  | JsVal.itemList xs => JsVal.number xs.length

/-! ## The handlers -/

/-- The JSON answer of `exports.create`. -/
structure CreateResponse where
  code : Nat
  status : String
  message : String
  cart_item : CartItem
deriving DecidableEq, Repr

/-- Lines 12-21 of `exports.create`: the cart `findOne` gives for the user, or
the one created when it gives `null`. -/
def userCart (s : Store) (body : CreateBody) : Cart × Store :=
  match Cart.findOne s body.user_id with
  | some c => (c, s)
  | none => Cart.create s body.user_id body.email

/-- Lines 38-39 of `exports.create`: the found line item with the supplied
quantity and total added to its own, by the `+` of Numbers. -/
def merge (body : CreateBody) (cart_item : CartItem) : CartItem :=
  { cart_item with
    quantity := body.cart_items.quantity + cart_item.quantity,
    total_amount := body.cart_items.total_amount + cart_item.total_amount }

/-- Lines 23-41 of `exports.create`: the line item of the cart for the product,
created when `findOne` gives `null` and merged into otherwise. -/
def cartItem (s1 : Store) (user_cart : Cart) (body : CreateBody) : CartItem × Store :=
  match CartItems.findOne s1 body.cart_items.product_id user_cart._id with
  | none =>
      CartItems.create s1 user_cart._id body.cart_items.product_id
        body.cart_items.quantity body.cart_items.amount
        body.cart_items.total_amount (body.cart_items.image.getD "")
  | some cart_item => (merge body cart_item, CartItems.save s1 (merge body cart_item))

/-- The handler `exports.create` (lines 9-50). -/
def create (s : Store) (body : CreateBody) : CreateResponse × Store :=
  let found := userCart s body
  let done := cartItem found.2 found.1 body
  ({ code := 200, status := "success",
     message := "Product successfully added to cart", cart_item := done.1 }, done.2)

/-- The JSON answer of `exports.getCart`; `results` is absent from the JSON
when the value is `undefined`. -/
structure GetCartResponse where
  code : Nat
  status : String
  results : JsVal
  user_cart : List CartAggregate
deriving DecidableEq, Repr

/-- The handler `exports.getCart` (lines 52-67). -/
def getCart (s : Store) (user_id : Nat) : GetCartResponse × Store :=
  let user_cart := Cart.aggregate s user_id
  ({ code := 200, status := "success",
     results := optionalLength (aggregateGet user_cart "cart_items"),
     user_cart := user_cart }, s)

/-- The JSON answer of `exports.delete`. -/
structure DeleteResponse where
  code : Nat
  status : String
  message : String
deriving DecidableEq, Repr

/-- The handler `exports.delete` (lines 69-90). Reading `length` of `null`
throws a `TypeError`; the `find` of line 80 only reads; the deletions of the
`forEach` are taken in list order. -/
def delete (s : Store) (body : DeleteBody) : Except Failure DeleteResponse × Store :=
  match Cart.findOne s body.user_id with
  | none =>
      (Except.error (Failure.TypeError "Cannot read properties of null (reading 'length')"), s)
  | some user_cart =>
      if Cart.get user_cart "length" = JsVal.undefined then
        (Except.error (Failure.AppError "Empty cart"), s)
      else
        let s2 := body.cart_items.foldl (fun st item => CartItems.findOneAndRemove st item._id) s
        (Except.ok { code := 200, status := "success",
                     message := "Removed from cart successfully" }, s2)

/-! ## Sequential executions -/

/-- One request to the cart engine. -/
inductive Op where
  | AddItem (body : CreateBody)
  | GetCart (user_id : Nat)
  | RemoveItems (body : DeleteBody)
deriving DecidableEq, Repr

/-- The store after one request has been served. -/
def Op.run (s : Store) : Op → Store
  | Op.AddItem body => (create s body).2
  | Op.GetCart user_id => (getCart s user_id).2
  | Op.RemoveItems body => (delete s body).2

/-- The store after a sequence of requests served one after the other. -/
def runOps (s : Store) (ops : List Op) : Store :=
  ops.foldl Op.run s

/-- One more `exports.create` call in a sequence: the line item it answers with
and the store it leaves. -/
def createStep (acc : Option CartItem × Store) (body : CreateBody) :
    Option CartItem × Store :=
  (some (create acc.2 body).1.cart_item, (create acc.2 body).2)

/-- The outcome of a sequence of `exports.create` calls served one after the
other: the line item the last call answered with, and the store. -/
def createAll (s : Store) (bodies : List CreateBody) : Option CartItem × Store :=
  bodies.foldl createStep (none, s)

/-! ## Interleaved executions of `exports.create`

Every `await` of the handler is a point where it is suspended on one store
call; between two such points it runs alone.  A running call is therefore
described by the store call it issues next, and an interleaving of several
calls by the order in which their store calls are served. -/

/-- Modelled from the spec: the schema file `models/cartModel` is not among the
sources, so whether the `carts` collection carries a unique index on `user_id`
is a parameter of `Cart.create` here; with the index a second cart for the same
user is rejected with a duplicate-key error, without it the call is
`Cart.create`. -/
def Cart.createIndexed (uniqueUser : Bool) (s : Store) (user_id : Nat) (email : String) :
    Except Failure (Cart × Store) :=
  if uniqueUser && s.carts.any (fun c => c.user_id == user_id) then
    Except.error (Failure.MongoServerError "E11000 duplicate key error")
  else
    Except.ok (Cart.create s user_id email)

/-- Where a running call of `exports.create` stands: the store call it issues
next (`findCart` line 12, `createCart` line 17, `findItem` line 23, `createItem`
line 29, `saveItem` line 40 with the assignments of lines 38-39 done), or how it
ended (`done` with the line item of the answer, `failed` with what was thrown). -/
inductive CreatePc where
  | findCart
  | createCart
  | findItem (user_cart : Cart)
  | createItem (user_cart : Cart)
  | saveItem (cart_item : CartItem)
  | done (cart_item : CartItem)
  | failed (e : Failure)
deriving DecidableEq, Repr

/-- One store call of a running `exports.create` served against the store. -/
def CreatePc.step (uniqueUser : Bool) (body : CreateBody) (s : Store) :
    CreatePc → CreatePc × Store
  | CreatePc.findCart =>
      match Cart.findOne s body.user_id with
      | some c => (CreatePc.findItem c, s)
      | none => (CreatePc.createCart, s)
  | CreatePc.createCart =>
      match Cart.createIndexed uniqueUser s body.user_id body.email with
      | Except.ok r => (CreatePc.findItem r.1, r.2)
      | Except.error e => (CreatePc.failed e, s)
  | CreatePc.findItem user_cart =>
      match CartItems.findOne s body.cart_items.product_id user_cart._id with
      | none => (CreatePc.createItem user_cart, s)
      | some cart_item => (CreatePc.saveItem (merge body cart_item), s)
  | CreatePc.createItem user_cart =>
      let r := CartItems.create s user_cart._id body.cart_items.product_id
        body.cart_items.quantity body.cart_items.amount
        body.cart_items.total_amount (body.cart_items.image.getD "")
      (CreatePc.done r.1, r.2)
  | CreatePc.saveItem cart_item => (CreatePc.done cart_item, CartItems.save s cart_item)
  | CreatePc.done cart_item => (CreatePc.done cart_item, s)
  | CreatePc.failed e => (CreatePc.failed e, s)

/-- Whether a call has ended. -/
def CreatePc.finished : CreatePc → Bool
  | CreatePc.done _ => true
  | CreatePc.failed _ => true
  | _ => false

/-- A call of `exports.create` in flight: its request body and where it stands. -/
structure Running where
  body : CreateBody
  pc : CreatePc
deriving DecidableEq, Repr

/-- The store together with the calls in flight. -/
structure Conc where
  store : Store
  calls : List Running
deriving DecidableEq, Repr

/-- All the calls about to issue their first store call. -/
def Conc.start (s : Store) (bodies : List CreateBody) : Conc :=
  { store := s, calls := bodies.map (fun b => { body := b, pc := CreatePc.findCart }) }

/-- The next store call of call number `k` is served. -/
def Conc.step (uniqueUser : Bool) (st : Conc) (k : Nat) : Conc :=
  match st.calls.get? k with
  | none => st
  | some r =>
      let n := CreatePc.step uniqueUser r.body st.store r.pc
      { store := n.2, calls := st.calls.set k { body := r.body, pc := n.1 } }

/-- The store calls are served in the order the schedule gives. -/
def Conc.run (uniqueUser : Bool) (st : Conc) (schedule : List Nat) : Conc :=
  schedule.foldl (Conc.step uniqueUser) st

/-! ## Store predicates -/

/-- At most one cart per `user_id`. -/
def UniqueCarts (s : Store) : Prop :=
  (s.carts.map (fun c => c.user_id)).Nodup

/-- At most one line item per `(cart_id, product_id)` pair. -/
def UniqueItems (s : Store) : Prop :=
  (s.cart_items.map (fun i => (i.cart_id, i.product_id))).Nodup

/-- The two uniqueness properties of the store together. -/
def Inv (s : Store) : Prop :=
  UniqueCarts s ∧ UniqueItems s

/-- What the id generator guarantees: every id in the store, own or referenced,
has been handed out already, and no two line items share an `_id`. -/
def WellFormed (s : Store) : Prop :=
  (∀ c ∈ s.carts, c._id < s.next_id) ∧
  (∀ i ∈ s.cart_items, i._id < s.next_id ∧ i.cart_id < s.next_id) ∧
  (s.cart_items.map (fun i => i._id)).Nodup

instance (s : Store) : Decidable (UniqueCarts s) := by
  unfold UniqueCarts; infer_instance

instance (s : Store) : Decidable (UniqueItems s) := by
  unfold UniqueItems; infer_instance

instance (s : Store) : Decidable (Inv s) := by
  unfold Inv; infer_instance

instance (s : Store) : Decidable (WellFormed s) := by
  unfold WellFormed; infer_instance

/-- The paths of a line item that a merge leaves alone. -/
def CartItem.frame (i : CartItem) : Nat × Nat × Nat × JsNumber × String :=
  (i._id, i.cart_id, i.product_id, i.amount, i.image)

/-- The product, quantity, amount and total amount a line item carries. -/
def CartItem.supplied (i : CartItem) : Nat × JsNumber × JsNumber × JsNumber :=
  (i.product_id, i.quantity, i.amount, i.total_amount)

/-- The product, quantity, amount and total amount a request supplies. -/
def CreateBody.supplied (b : CreateBody) : Nat × JsNumber × JsNumber × JsNumber :=
  (b.cart_items.product_id, b.cart_items.quantity, b.cart_items.amount,
    b.cart_items.total_amount)

/-- Where a call may stand once the user's cart `c` exists and no other call
has read `null` at line 12: before its first store call, holding `c` on its way
to the line item, or answered. -/
def CreatePc.holds (c : Cart) : CreatePc → Prop
  | CreatePc.findCart => True
  | CreatePc.findItem user_cart => user_cart = c
  | CreatePc.createItem user_cart => user_cart = c
  | CreatePc.done _ => True
  | _ => False

/-- The state of an interleaved execution of the requests `bodies` of user `u`
once the cart `c` exists: `c` is the user's only cart, every call stands where
`CreatePc.holds` allows, every answered call has its line item in `c` with the
values it supplied, every line item of `c` belongs to an answered call, and no
two line items of `c` are for the same product. -/
structure Conc.Settled (u : Nat) (bodies : List CreateBody) (c : Cart) (st : Conc) : Prop where
  cart : st.store.carts.filter (fun x => x.user_id == u) = [c]
  bodies : st.calls.map (fun r => r.body) = bodies
  pcs : ∀ r ∈ st.calls, CreatePc.holds c r.pc
  answered : ∀ r ∈ st.calls, ∀ it, r.pc = CreatePc.done it →
    it ∈ st.store.cart_items ∧ it.cart_id = c._id ∧ it.supplied = r.body.supplied
  owned : ∀ it ∈ st.store.cart_items, it.cart_id = c._id →
    ∃ r ∈ st.calls, r.pc = CreatePc.done it
  distinct : ((st.store.cart_items.filter (fun i => i.cart_id == c._id)).map
    (fun i => i.product_id)).Nodup

/-! ## Lemmas on the store calls and the handlers -/

theorem Cart.get_length (c : Cart) : Cart.get c "length" = JsVal.undefined := by
  simp [Cart.get]

theorem updateOne_map (p : CartItem → Bool) (f : CartItem → CartItem) {β : Type}
    (g : CartItem → β) (hf : ∀ i, g (f i) = g i) (l : List CartItem) :
    (updateOne p f l).map g = l.map g := by
  induction l with
  | nil => rfl
  | cons i rest ih =>
    unfold updateOne
    split
    · simp [hf]
    · simp [ih]

theorem updateOne_eq_map (a : Nat) (f : CartItem → CartItem) (l : List CartItem)
    (hnd : (l.map (fun i => i._id)).Nodup) :
    updateOne (fun i => i._id == a) f l = l.map (fun i => if i._id = a then f i else i) := by
  induction l with
  | nil => rfl
  | cons i rest ih =>
    rw [List.map_cons, List.nodup_cons] at hnd
    unfold updateOne
    by_cases h : i._id = a
    · have hrest : rest.map (fun j => if j._id = a then f j else j) = rest := by
        conv_rhs => rw [← List.map_id rest]
        apply List.map_congr_left
        intro j hj
        have : j._id ≠ a := by
          intro hja
          apply hnd.1
          rw [h, ← hja]
          exact List.mem_map_of_mem _ hj
        simp [this]
      simp [h, hrest]
    · simp [h, ih hnd.2]

theorem delete_store (s : Store) (body : DeleteBody) : (delete s body).2 = s := by
  unfold delete
  split
  · rfl
  · simp [Cart.get_length]

theorem getCart_store (s : Store) (user_id : Nat) : (getCart s user_id).2 = s := rfl

theorem userCart_items (s : Store) (body : CreateBody) :
    (userCart s body).2.cart_items = s.cart_items := by
  unfold userCart
  split <;> rfl

theorem userCart_carts (s : Store) (body : CreateBody) :
    ∃ added, (userCart s body).2.carts = s.carts ++ added := by
  unfold userCart
  split
  · exact ⟨[], by simp⟩
  · exact ⟨_, rfl⟩

theorem cartItem_carts (s : Store) (c : Cart) (body : CreateBody) :
    (cartItem s c body).2.carts = s.carts := by
  unfold cartItem
  split <;> rfl

theorem userCart_unique (s : Store) (body : CreateBody) (h : UniqueCarts s) :
    UniqueCarts (userCart s body).2 := by
  unfold userCart
  split
  · exact h
  · rename_i hnone
    unfold Cart.findOne at hnone
    rw [List.find?_eq_none] at hnone
    unfold UniqueCarts Cart.create
    simp only [List.map_append, List.map_cons, List.map_nil]
    rw [List.nodup_append]
    refine ⟨h, List.nodup_singleton _, ?_⟩
    intro u hu hu2
    rw [List.mem_singleton] at hu2
    rw [List.mem_map] at hu
    obtain ⟨c, hc, hcu⟩ := hu
    have := hnone c hc
    simp [hcu, hu2] at this

theorem cartItem_unique (s : Store) (c : Cart) (body : CreateBody) (h : UniqueItems s) :
    UniqueItems (cartItem s c body).2 := by
  unfold cartItem
  split
  · rename_i hnone
    unfold CartItems.findOne at hnone
    rw [List.find?_eq_none] at hnone
    unfold UniqueItems CartItems.create
    simp only [List.map_append, List.map_cons, List.map_nil]
    rw [List.nodup_append]
    refine ⟨h, List.nodup_singleton _, ?_⟩
    intro u hu hu2
    rw [List.mem_singleton] at hu2
    rw [List.mem_map] at hu
    obtain ⟨i, hi, hiu⟩ := hu
    have := hnone i hi
    rw [hu2] at hiu
    simp only [Prod.mk.injEq] at hiu
    simp [hiu.1, hiu.2] at this
  · unfold UniqueItems CartItems.save
    simp only
    rw [updateOne_map]
    · exact h
    · intro i; rfl

theorem create_inv (s : Store) (body : CreateBody) (h : Inv s) : Inv (create s body).2 := by
  unfold create
  simp only
  constructor
  · unfold UniqueCarts
    rw [cartItem_carts]
    exact userCart_unique s body h.1
  · apply cartItem_unique
    unfold UniqueItems
    rw [userCart_items]
    exact h.2

theorem Op.run_inv (s : Store) (op : Op) (h : Inv s) : Inv (Op.run s op) := by
  cases op with
  | AddItem body => exact create_inv s body h
  | GetCart u => exact h
  | RemoveItems body =>
    show Inv (delete s body).2
    rw [delete_store]; exact h

theorem runOps_inv (ops : List Op) : ∀ s : Store, Inv s → Inv (runOps s ops) := by
  induction ops with
  | nil => intro s h; exact h
  | cons op rest ih =>
    intro s h
    exact ih _ (Op.run_inv s op h)

theorem find?_of_filter_singleton {α : Type} (p : α → Bool) (a : α) :
    ∀ l : List α, l.filter p = [a] → l.find? p = some a := by
  intro l
  induction l with
  | nil => intro h; simp at h
  | cons i rest ih =>
    intro h
    by_cases hp : p i = true
    · rw [List.filter_cons_of_pos hp] at h
      rw [List.find?_cons_of_pos _ hp]
      simp only [List.cons.injEq] at h
      rw [h.1]
    · rw [List.filter_cons_of_neg hp] at h
      rw [List.find?_cons_of_neg _ hp]
      exact ih h

theorem userCart_wf (s : Store) (body : CreateBody) (h : WellFormed s) :
    WellFormed (userCart s body).2 ∧ (userCart s body).1._id < (userCart s body).2.next_id := by
  obtain ⟨hc, hi, hnd⟩ := h
  unfold userCart
  split
  · rename_i c hfound
    refine ⟨⟨hc, hi, hnd⟩, hc c ?_⟩
    exact List.mem_of_find?_eq_some hfound
  · refine ⟨⟨?_, ?_, hnd⟩, ?_⟩
    · intro c hcm
      simp only [Cart.create, List.mem_append, List.mem_singleton] at hcm ⊢
      rcases hcm with hcm | hcm
      · exact Nat.lt_succ_of_lt (hc c hcm)
      · rw [hcm]; exact Nat.lt_succ_self _
    · intro i him
      simp only [Cart.create] at him ⊢
      exact ⟨Nat.lt_succ_of_lt (hi i him).1, Nat.lt_succ_of_lt (hi i him).2⟩
    · simp [Cart.create]

theorem updateOne_forall (p : CartItem → Bool) (f : CartItem → CartItem) (Q : CartItem → Prop)
    (hf : ∀ i, Q i → Q (f i)) :
    ∀ l : List CartItem, (∀ i ∈ l, Q i) → ∀ i ∈ updateOne p f l, Q i := by
  intro l
  induction l with
  | nil => intro _ i hi; simp [updateOne] at hi
  | cons j rest ih =>
    intro h i hi
    unfold updateOne at hi
    split at hi
    · rw [List.mem_cons] at hi
      rcases hi with hi | hi
      · rw [hi]; exact hf j (h j (List.mem_cons_self _ _))
      · exact h i (List.mem_cons_of_mem _ hi)
    · rw [List.mem_cons] at hi
      rcases hi with hi | hi
      · rw [hi]; exact h j (List.mem_cons_self _ _)
      · exact ih (fun k hk => h k (List.mem_cons_of_mem _ hk)) i hi

theorem cartItem_wf (s : Store) (c : Cart) (body : CreateBody) (h : WellFormed s)
    (hlt : c._id < s.next_id) : WellFormed (cartItem s c body).2 := by
  obtain ⟨hc, hi, hnd⟩ := h
  unfold cartItem
  split
  · refine ⟨?_, ?_, ?_⟩
    · intro d hd
      simp only [CartItems.create] at hd ⊢
      exact Nat.lt_succ_of_lt (hc d hd)
    · intro i him
      simp only [CartItems.create, List.mem_append, List.mem_singleton] at him ⊢
      rcases him with him | him
      · exact ⟨Nat.lt_succ_of_lt (hi i him).1, Nat.lt_succ_of_lt (hi i him).2⟩
      · rw [him]; exact ⟨Nat.lt_succ_self _, Nat.lt_succ_of_lt hlt⟩
    · simp only [CartItems.create, List.map_append, List.map_cons, List.map_nil]
      rw [List.nodup_append]
      refine ⟨hnd, List.nodup_singleton _, ?_⟩
      intro a ha ha2
      rw [List.mem_singleton] at ha2
      rw [List.mem_map] at ha
      obtain ⟨i, him, hia⟩ := ha
      have := (hi i him).1
      omega
  · refine ⟨hc, ?_, ?_⟩
    · simp only [CartItems.save]
      apply updateOne_forall _ _ (fun i => i._id < s.next_id ∧ i.cart_id < s.next_id) _ _ hi
      intro i hq
      exact hq
    · simp only [CartItems.save]
      rw [updateOne_map]
      · exact hnd
      · intro i; rfl

theorem create_wf (s : Store) (body : CreateBody) (h : WellFormed s) :
    WellFormed (create s body).2 := by
  unfold create
  exact cartItem_wf _ _ body (userCart_wf s body h).1 (userCart_wf s body h).2

theorem Op.run_carts (s : Store) (op : Op) :
    ∃ added, (Op.run s op).carts = s.carts ++ added := by
  cases op with
  | AddItem body =>
    show ∃ added, (create s body).2.carts = s.carts ++ added
    unfold create
    simp only
    rw [cartItem_carts]
    exact userCart_carts s body
  | GetCart u => exact ⟨[], by simp [Op.run, getCart]⟩
  | RemoveItems body =>
    refine ⟨[], ?_⟩
    show (delete s body).2.carts = s.carts ++ []
    rw [delete_store]; simp

theorem runOps_carts (ops : List Op) :
    ∀ s : Store, ∃ added, (runOps s ops).carts = s.carts ++ added := by
  induction ops with
  | nil => intro s; exact ⟨[], by simp [runOps]⟩
  | cons op rest ih =>
    intro s
    obtain ⟨a1, h1⟩ := Op.run_carts s op
    obtain ⟨a2, h2⟩ := ih (Op.run s op)
    refine ⟨a1 ++ a2, ?_⟩
    show (runOps (Op.run s op) rest).carts = _
    rw [h2, h1, List.append_assoc]

theorem emptyStore_inv : Inv emptyStore := by decide

/-- C9. If a store has at most one cart per `user_id` and at most one line item
per `(cart_id, product_id)` pair, so has the store after any one request
(`AddItem`, `GetCart`, `RemoveItems`) and after any sequence of requests served
one after the other; every store reached from the empty one has both
properties; and the carts present before are still there, unchanged and in
place, afterwards (new carts are only appended), so no cart's `user_id` ever
changes. -/
theorem uniqueness_invariant (s : Store) (op : Op) (ops : List Op) (h : Inv s) :
    Inv (Op.run s op) ∧ Inv (runOps s ops) ∧ Inv (runOps emptyStore ops) ∧
      (∃ added, (Op.run s op).carts = s.carts ++ added) ∧
      (∃ added, (runOps s ops).carts = s.carts ++ added) :=
  ⟨Op.run_inv s op h, runOps_inv ops s h, runOps_inv ops emptyStore emptyStore_inv,
    Op.run_carts s op, runOps_carts ops s⟩

theorem uniqueness_invariant_witness :
    Inv emptyStore ∧
    Inv (Op.run emptyStore (Op.AddItem ⟨1, "a@b.c", ⟨7, 2, 10, 20, none⟩⟩)) ∧
    Inv (runOps emptyStore
      [Op.AddItem ⟨1, "a@b.c", ⟨7, 2, 10, 20, none⟩⟩, Op.RemoveItems ⟨1, [⟨1⟩]⟩,
       Op.AddItem ⟨1, "a@b.c", ⟨7, 3, 10, 30, none⟩⟩, Op.GetCart 1]) :=
  ⟨by decide,
   (uniqueness_invariant emptyStore (Op.AddItem ⟨1, "a@b.c", ⟨7, 2, 10, 20, none⟩⟩)
      [Op.AddItem ⟨1, "a@b.c", ⟨7, 2, 10, 20, none⟩⟩, Op.RemoveItems ⟨1, [⟨1⟩]⟩,
       Op.AddItem ⟨1, "a@b.c", ⟨7, 3, 10, 30, none⟩⟩, Op.GetCart 1] (by decide)).1,
   (uniqueness_invariant emptyStore (Op.AddItem ⟨1, "a@b.c", ⟨7, 2, 10, 20, none⟩⟩)
      [Op.AddItem ⟨1, "a@b.c", ⟨7, 2, 10, 20, none⟩⟩, Op.RemoveItems ⟨1, [⟨1⟩]⟩,
       Op.AddItem ⟨1, "a@b.c", ⟨7, 3, 10, 30, none⟩⟩, Op.GetCart 1] (by decide)).2.1⟩

/-- C3. `exports.getCart` is a pure read: the store after the call is the store
before it, for every store and every user id; and for a user with no cart the
answer carries the empty aggregate and the user still has no cart afterwards. -/
theorem getCart_pure_read (s : Store) (user_id : Nat) :
    (getCart s user_id).2 = s ∧
      (getCart s user_id).2.carts = s.carts ∧
      (getCart s user_id).2.cart_items = s.cart_items ∧
      (Cart.findOne s user_id = none →
        (getCart s user_id).1.user_cart = [] ∧
        (getCart s user_id).1.results = JsVal.undefined ∧
        Cart.findOne (getCart s user_id).2 user_id = none) := by
  refine ⟨rfl, rfl, rfl, ?_⟩
  intro hnone
  refine ⟨?_, ?_, hnone⟩
  · unfold Cart.findOne at hnone
    rw [List.find?_eq_none] at hnone
    simp only [getCart, Cart.aggregate, List.map_eq_nil_iff, List.filter_eq_nil_iff]
    exact hnone
  · simp [getCart, aggregateGet, optionalLength]

theorem getCart_pure_read_witness :
    (getCart emptyStore 1).2 = emptyStore ∧ (getCart emptyStore 1).1.user_cart = [] ∧
      Cart.findOne (getCart emptyStore 1).2 1 = none :=
  ⟨(getCart_pure_read emptyStore 1).1,
   ((getCart_pure_read emptyStore 1).2.2.2 (by decide)).1,
   ((getCart_pure_read emptyStore 1).2.2.2 (by decide)).2.2⟩

/-- C8. When `exports.create` finds a line item for the (found or created) cart
and the product, the line item it answers with has the found one's `_id`,
`cart_id`, `product_id`, `amount` and `image`, whatever amount and image were
supplied; its `quantity` and `total_amount` are the supplied ones added to the
found ones; and in the store every line item keeps those five paths, the
number and order of line items included. -/
theorem create_merge_frame (s : Store) (body : CreateBody) (old : CartItem)
    (hfound : CartItems.findOne (userCart s body).2 body.cart_items.product_id
      (userCart s body).1._id = some old) :
    (create s body).1.cart_item._id = old._id ∧
    (create s body).1.cart_item.cart_id = old.cart_id ∧
    (create s body).1.cart_item.product_id = old.product_id ∧
    (create s body).1.cart_item.amount = old.amount ∧
    (create s body).1.cart_item.image = old.image ∧
    (create s body).1.cart_item.quantity = body.cart_items.quantity + old.quantity ∧
    (create s body).1.cart_item.total_amount =
      body.cart_items.total_amount + old.total_amount ∧
    (create s body).2.cart_items.map CartItem.frame = s.cart_items.map CartItem.frame := by
  have hitem : cartItem (userCart s body).2 (userCart s body).1 body =
      (merge body old, CartItems.save (userCart s body).2 (merge body old)) := by
    unfold cartItem
    rw [hfound]
  unfold create
  simp only [hitem]
  refine ⟨rfl, rfl, rfl, rfl, rfl, rfl, rfl, ?_⟩
  simp only [CartItems.save]
  rw [updateOne_map, userCart_items]
  intro i; rfl

theorem create_merge_frame_witness :
    (create ⟨[⟨0, 1, "a@b.c"⟩], [⟨1, 0, 7, 2, 10, 20, "old.png"⟩], 2⟩
        ⟨1, "a@b.c", ⟨7, 3, 99, 30, some "new.png"⟩⟩).1.cart_item
      = ⟨1, 0, 7, 5, 10, 50, "old.png"⟩ ∧
    (create ⟨[⟨0, 1, "a@b.c"⟩], [⟨1, 0, 7, 2, 10, 20, "old.png"⟩], 2⟩
        ⟨1, "a@b.c", ⟨7, 3, 99, 30, some "new.png"⟩⟩).1.cart_item.amount = 10 := by
  have h := create_merge_frame ⟨[⟨0, 1, "a@b.c"⟩], [⟨1, 0, 7, 2, 10, 20, "old.png"⟩], 2⟩
    ⟨1, "a@b.c", ⟨7, 3, 99, 30, some "new.png"⟩⟩ ⟨1, 0, 7, 2, 10, 20, "old.png"⟩ (by decide)
  exact ⟨by decide, h.2.2.2.1⟩

/-- C2. For a user with no cart, in a store with ids handed out by the id
generator, `exports.create` followed by `exports.getCart` answers with exactly one cart, that user's, whose joined `cart_items` is exactly
one line item: the one `exports.create` answered with, carrying the supplied
product, quantity, amount and total amount. -/
theorem create_then_getCart (s : Store) (body : CreateBody) (hwf : WellFormed s)
    (hnew : Cart.findOne s body.user_id = none) :
    ∃ cart item,
      (getCart (create s body).2 body.user_id).1.user_cart = [cart] ∧
      cart.user_id = body.user_id ∧ cart.email = body.email ∧
      cart.cart_items = [item] ∧
      item = (create s body).1.cart_item ∧
      item.cart_id = cart._id ∧
      item.product_id = body.cart_items.product_id ∧
      item.quantity = body.cart_items.quantity ∧
      item.amount = body.cart_items.amount ∧
      item.total_amount = body.cart_items.total_amount := by
  obtain ⟨hc, hi, hnd⟩ := hwf
  have hcart : userCart s body = Cart.create s body.user_id body.email := by
    unfold userCart; rw [hnew]
  have hnoitem : CartItems.findOne (Cart.create s body.user_id body.email).2
      body.cart_items.product_id s.next_id = none := by
    unfold CartItems.findOne
    rw [List.find?_eq_none]
    intro i him
    have := (hi i him).2
    simp only [Cart.create] at him ⊢
    simp only [Bool.and_eq_true, beq_iff_eq, not_and]
    intro _
    omega
  have hfilter_c : s.carts.filter (fun c => c.user_id == body.user_id) = [] := by
    unfold Cart.findOne at hnew
    rw [List.find?_eq_none] at hnew
    rw [List.filter_eq_nil_iff]
    exact hnew
  have hfilter_i : s.cart_items.filter (fun i => i.cart_id == s.next_id) = [] := by
    rw [List.filter_eq_nil_iff]
    intro i him
    have := (hi i him).2
    simp only [beq_iff_eq]
    omega
  have hitem : cartItem (Cart.create s body.user_id body.email).2
      (Cart.create s body.user_id body.email).1 body =
      CartItems.create (Cart.create s body.user_id body.email).2 s.next_id
        body.cart_items.product_id body.cart_items.quantity body.cart_items.amount
        body.cart_items.total_amount (body.cart_items.image.getD "") := by
    unfold cartItem
    have : (Cart.create s body.user_id body.email).1._id = s.next_id := rfl
    rw [this, hnoitem]
  have hcreate : create s body =
      ({ code := 200, status := "success", message := "Product successfully added to cart",
         cart_item := ⟨s.next_id + 1, s.next_id, body.cart_items.product_id,
           body.cart_items.quantity, body.cart_items.amount, body.cart_items.total_amount,
           body.cart_items.image.getD ""⟩ },
       { carts := s.carts ++ [⟨s.next_id, body.user_id, body.email⟩],
         cart_items := s.cart_items ++ [⟨s.next_id + 1, s.next_id, body.cart_items.product_id,
           body.cart_items.quantity, body.cart_items.amount, body.cart_items.total_amount,
           body.cart_items.image.getD ""⟩],
         next_id := s.next_id + 1 + 1 }) := by
    unfold create
    simp only [hcart, hitem]
    rfl
  refine ⟨⟨s.next_id, body.user_id, body.email,
      [⟨s.next_id + 1, s.next_id, body.cart_items.product_id,
        body.cart_items.quantity, body.cart_items.amount, body.cart_items.total_amount,
        body.cart_items.image.getD ""⟩]⟩,
    ⟨s.next_id + 1, s.next_id, body.cart_items.product_id,
      body.cart_items.quantity, body.cart_items.amount, body.cart_items.total_amount,
      body.cart_items.image.getD ""⟩, ?_, rfl, rfl, rfl, ?_, rfl, rfl, rfl, rfl, rfl⟩
  · rw [hcreate]
    simp only [getCart, Cart.aggregate, List.filter_append, hfilter_c, hfilter_i,
      List.nil_append, List.filter_cons, beq_self_eq_true, List.filter_nil, if_true,
      List.map_cons, List.map_nil]
  · rw [hcreate]

theorem create_then_getCart_witness :
    ∃ cart item,
      (getCart (create emptyStore ⟨1, "a@b.c", ⟨7, 2, 10, 20, none⟩⟩).2 1).1.user_cart = [cart] ∧
      cart.user_id = 1 ∧ cart.email = "a@b.c" ∧ cart.cart_items = [item] ∧
      item = (create emptyStore ⟨1, "a@b.c", ⟨7, 2, 10, 20, none⟩⟩).1.cart_item ∧
      item.cart_id = cart._id ∧
      item.product_id = 7 ∧ item.quantity = 2 ∧ item.amount = 10 ∧ item.total_amount = 20 :=
  create_then_getCart emptyStore ⟨1, "a@b.c", ⟨7, 2, 10, 20, none⟩⟩ (by decide) (by decide)

theorem cartItem_of_none (s1 : Store) (c : Cart) (body : CreateBody)
    (hnone : CartItems.findOne s1 body.cart_items.product_id c._id = none) :
    (cartItem s1 c body).1 =
        ⟨s1.next_id, c._id, body.cart_items.product_id, body.cart_items.quantity,
          body.cart_items.amount, body.cart_items.total_amount,
          body.cart_items.image.getD ""⟩ ∧
      (cartItem s1 c body).2.carts = s1.carts ∧
      (cartItem s1 c body).2.cart_items.filter
          (fun i => i.product_id == body.cart_items.product_id && i.cart_id == c._id) =
        [(cartItem s1 c body).1] := by
  have hfil : s1.cart_items.filter
      (fun i => i.product_id == body.cart_items.product_id && i.cart_id == c._id) = [] := by
    unfold CartItems.findOne at hnone
    rw [List.find?_eq_none] at hnone
    rw [List.filter_eq_nil_iff]
    exact hnone
  unfold cartItem
  rw [hnone]
  refine ⟨rfl, rfl, ?_⟩
  simp only [CartItems.create, List.filter_append, hfil, List.nil_append]
  simp

theorem cartItem_of_some (s1 : Store) (c : Cart) (body : CreateBody) (it : CartItem)
    (hnd : (s1.cart_items.map (fun i => i._id)).Nodup)
    (hfil : s1.cart_items.filter
      (fun i => i.product_id == body.cart_items.product_id && i.cart_id == c._id) = [it]) :
    (cartItem s1 c body).1 = merge body it ∧
      (cartItem s1 c body).2.carts = s1.carts ∧
      (cartItem s1 c body).2.cart_items.filter
          (fun i => i.product_id == body.cart_items.product_id && i.cart_id == c._id) =
        [merge body it] := by
  have hfound : CartItems.findOne s1 body.cart_items.product_id c._id = some it :=
    find?_of_filter_singleton _ it _ hfil
  unfold cartItem
  rw [hfound]
  refine ⟨rfl, rfl, ?_⟩
  simp only [CartItems.save]
  rw [updateOne_eq_map _ _ _ hnd, List.filter_map]
  have hcongr : s1.cart_items.filter
      ((fun i => i.product_id == body.cart_items.product_id && i.cart_id == c._id) ∘
        (fun i => if i._id = (merge body it)._id then
          { i with quantity := (merge body it).quantity,
                   total_amount := (merge body it).total_amount } else i)) =
      s1.cart_items.filter
        (fun i => i.product_id == body.cart_items.product_id && i.cart_id == c._id) := by
    apply List.filter_congr
    intro i _
    simp only [Function.comp]
    split <;> rfl
  rw [hcongr, hfil]
  simp [merge]

theorem create_merge_step (s : Store) (body : CreateBody) (c : Cart) (it : CartItem)
    (hwf : WellFormed s) (hc : Cart.findOne s body.user_id = some c)
    (hfil : s.cart_items.filter
      (fun i => i.product_id == body.cart_items.product_id && i.cart_id == c._id) = [it]) :
    (create s body).1.cart_item = merge body it ∧
      Cart.findOne (create s body).2 body.user_id = some c ∧
      (create s body).2.cart_items.filter
          (fun i => i.product_id == body.cart_items.product_id && i.cart_id == c._id) =
        [merge body it] := by
  have hcart : userCart s body = (c, s) := by
    unfold userCart; rw [hc]
  obtain ⟨h1, h2, h3⟩ := cartItem_of_some s c body it hwf.2.2 hfil
  unfold create
  simp only [hcart]
  refine ⟨h1, ?_, h3⟩
  unfold Cart.findOne
  rw [h2]
  exact hc

theorem create_first_step (s : Store) (body : CreateBody) (hwf : WellFormed s)
    (hfresh : ∀ c, Cart.findOne s body.user_id = some c →
      CartItems.findOne s body.cart_items.product_id c._id = none) :
    ∃ c, Cart.findOne (create s body).2 body.user_id = some c ∧
      (create s body).2.cart_items.filter
          (fun i => i.product_id == body.cart_items.product_id && i.cart_id == c._id) =
        [(create s body).1.cart_item] ∧
      (create s body).1.cart_item.quantity = body.cart_items.quantity ∧
      (create s body).1.cart_item.total_amount = body.cart_items.total_amount := by
  cases hc : Cart.findOne s body.user_id with
  | some c =>
    have hcart : userCart s body = (c, s) := by
      unfold userCart; rw [hc]
    obtain ⟨h1, h2, h3⟩ := cartItem_of_none s c body (hfresh c hc)
    refine ⟨c, ?_, ?_, ?_, ?_⟩
    · unfold create Cart.findOne
      simp only [hcart]
      rw [h2]
      exact hc
    · unfold create
      simp only [hcart]
      exact h3
    · unfold create
      simp only [hcart]
      rw [h1]
    · unfold create
      simp only [hcart]
      rw [h1]
  | none =>
    have hcart : userCart s body = Cart.create s body.user_id body.email := by
      unfold userCart; rw [hc]
    have hnone : CartItems.findOne (Cart.create s body.user_id body.email).2
        body.cart_items.product_id (Cart.create s body.user_id body.email).1._id = none := by
      unfold CartItems.findOne
      rw [List.find?_eq_none]
      intro i him
      have := (hwf.2.1 i him).2
      simp only [Cart.create] at him ⊢
      simp only [Bool.and_eq_true, beq_iff_eq, not_and]
      intro _
      omega
    obtain ⟨h1, h2, h3⟩ := cartItem_of_none _ _ body hnone
    refine ⟨(Cart.create s body.user_id body.email).1, ?_, ?_, ?_, ?_⟩
    · unfold create
      simp only [hcart]
      unfold Cart.findOne at hc ⊢
      rw [h2]
      simp only [Cart.create, List.find?_append, hc, Option.none_or]
      simp
    · unfold create
      simp only [hcart]
      exact h3
    · unfold create
      simp only [hcart]
      rw [h1]
    · unfold create
      simp only [hcart]
      rw [h1]

theorem delete_of_no_cart (s : Store) (body : DeleteBody)
    (h : Cart.findOne s body.user_id = none) :
    delete s body =
      (Except.error (Failure.TypeError "Cannot read properties of null (reading 'length')"), s) := by
  unfold delete
  rw [h]

theorem delete_of_cart (s : Store) (body : DeleteBody) (c : Cart)
    (h : Cart.findOne s body.user_id = some c) :
    delete s body = (Except.error (Failure.AppError "Empty cart"), s) := by
  unfold delete
  rw [h]
  simp [Cart.get_length]

/-- C4, evaluated. The store holds a cart of user 2 with one line item and no
cart of user 1. `exports.delete` for user 1 throws the `TypeError` of reading
`length` of `null`, which is not the `AppError` with message `Empty cart`; the
line items are left as they were. -/
theorem delete_no_cart_TypeError :
    (delete ⟨[⟨0, 2, "b@b.c"⟩], [⟨1, 0, 7, 2, 10, 20, ""⟩], 2⟩ ⟨1, [⟨1⟩]⟩).1 =
        Except.error (Failure.TypeError "Cannot read properties of null (reading 'length')") ∧
      (delete ⟨[⟨0, 2, "b@b.c"⟩], [⟨1, 0, 7, 2, 10, 20, ""⟩], 2⟩ ⟨1, [⟨1⟩]⟩).1 ≠
        Except.error (Failure.AppError "Empty cart") ∧
      (delete ⟨[⟨0, 2, "b@b.c"⟩], [⟨1, 0, 7, 2, 10, 20, ""⟩], 2⟩ ⟨1, [⟨1⟩]⟩).2.cart_items =
        [⟨1, 0, 7, 2, 10, 20, ""⟩] := by
  refine ⟨rfl, ?_, rfl⟩
  intro h
  have h2 : (Except.error (Failure.TypeError
      "Cannot read properties of null (reading 'length')") : Except Failure DeleteResponse) =
      Except.error (Failure.AppError "Empty cart") := h
  cases h2

/-- C5, evaluated. User 1 has a cart with two line items, `_id` 1 and 2.
`exports.delete` for user 1 and the reference to `_id` 1 does not answer with
success: it throws `Empty cart`, and both line items are still in the store. -/
theorem delete_removes_nothing :
    (delete ⟨[⟨0, 1, "a@b.c"⟩], [⟨1, 0, 7, 2, 10, 20, ""⟩, ⟨2, 0, 8, 1, 5, 5, ""⟩], 3⟩
        ⟨1, [⟨1⟩]⟩).1 = Except.error (Failure.AppError "Empty cart") ∧
      (delete ⟨[⟨0, 1, "a@b.c"⟩], [⟨1, 0, 7, 2, 10, 20, ""⟩, ⟨2, 0, 8, 1, 5, 5, ""⟩], 3⟩
        ⟨1, [⟨1⟩]⟩).2.cart_items = [⟨1, 0, 7, 2, 10, 20, ""⟩, ⟨2, 0, 8, 1, 5, 5, ""⟩] :=
  ⟨rfl, rfl⟩

/-- C6, evaluated. User 1 has a cart that holds one line item. `exports.delete`
for user 1 throws `Empty cart` all the same: a cart document has no `length`, so
the test `user_cart.length === undefined` of line 76 holds for it, as for every
cart. -/
theorem delete_nonempty_cart_throws :
    Cart.findOne ⟨[⟨0, 1, "a@b.c"⟩], [⟨1, 0, 7, 2, 10, 20, ""⟩], 2⟩ 1 = some ⟨0, 1, "a@b.c"⟩ ∧
      (List.filter (fun i => i.cart_id == 0) [(⟨1, 0, 7, 2, 10, 20, ""⟩ : CartItem)]).length = 1 ∧
      Cart.get ⟨0, 1, "a@b.c"⟩ "length" = JsVal.undefined ∧
      (delete ⟨[⟨0, 1, "a@b.c"⟩], [⟨1, 0, 7, 2, 10, 20, ""⟩], 2⟩ ⟨1, [⟨1⟩]⟩).1 =
        Except.error (Failure.AppError "Empty cart") :=
  ⟨by decide, by decide, by decide, rfl⟩

/-- C7, evaluated. Whatever the store and the user, the `results` field of the
answer of `exports.getCart` is `undefined`: the aggregation resolves to an
array, which has no `cart_items`. For user 1 with a cart of two line items the
count would be 2, and `results` is not. -/
theorem getCart_results_undefined :
    (∀ (s : Store) (user_id : Nat), (getCart s user_id).1.results = JsVal.undefined) ∧
      ((getCart ⟨[⟨0, 1, "a@b.c"⟩], [⟨1, 0, 7, 2, 10, 20, ""⟩, ⟨2, 0, 8, 1, 5, 5, ""⟩], 3⟩
          1).1.user_cart.map (fun c => c.cart_items.length) = [2]) ∧
      (getCart ⟨[⟨0, 1, "a@b.c"⟩], [⟨1, 0, 7, 2, 10, 20, ""⟩, ⟨2, 0, 8, 1, 5, 5, ""⟩], 3⟩
          1).1.results ≠ JsVal.number 2 := by
  refine ⟨?_, by decide, by decide⟩
  intro s user_id
  simp [getCart, aggregateGet, optionalLength]

theorem createIndexed_of_none (uniqueUser : Bool) (s : Store) (user_id : Nat) (email : String)
    (h : Cart.findOne s user_id = none) :
    Cart.createIndexed uniqueUser s user_id email = Except.ok (Cart.create s user_id email) := by
  unfold Cart.findOne at h
  rw [List.find?_eq_none] at h
  have hany : s.carts.any (fun c => c.user_id == user_id) = false := by
    rw [List.any_eq_false]
    exact h
  unfold Cart.createIndexed
  rw [hany]
  simp

/-- A call of `exports.create` left alone with the store takes at most four
store calls and ends with the answer and the store of `create`, with or without
the unique index. -/
theorem run_alone_eq_create (uniqueUser : Bool) (s : Store) (body : CreateBody) :
    Conc.run uniqueUser (Conc.start s [body]) [0, 0, 0, 0] =
      { store := (create s body).2,
        calls := [{ body := body, pc := CreatePc.done (create s body).1.cart_item }] } := by
  unfold create userCart cartItem
  cases hc : Cart.findOne s body.user_id with
  | some c =>
    cases hi : CartItems.findOne s body.cart_items.product_id c._id with
    | none =>
      simp [Conc.run, Conc.start, Conc.step, CreatePc.step, hc, hi]
    | some it =>
      simp [Conc.run, Conc.start, Conc.step, CreatePc.step, hc, hi]
  | none =>
    have hx := createIndexed_of_none uniqueUser s body.user_id body.email hc
    cases hi : CartItems.findOne (Cart.create s body.user_id body.email).2
        body.cart_items.product_id (Cart.create s body.user_id body.email).1._id with
    | none =>
      simp [Conc.run, Conc.start, Conc.step, CreatePc.step, hc, hi, hx]
    | some it =>
      simp [Conc.run, Conc.start, Conc.step, CreatePc.step, hc, hi, hx]

theorem create_of_new_user (s : Store) (body : CreateBody) (hwf : WellFormed s)
    (hnew : Cart.findOne s body.user_id = none) :
    (create s body).2.carts = s.carts ++ [⟨s.next_id, body.user_id, body.email⟩] ∧
    (create s body).2.cart_items =
      s.cart_items ++ [⟨s.next_id + 1, s.next_id, body.cart_items.product_id,
        body.cart_items.quantity, body.cart_items.amount, body.cart_items.total_amount,
        body.cart_items.image.getD ""⟩] := by
  have hcart : userCart s body = Cart.create s body.user_id body.email := by
    unfold userCart; rw [hnew]
  have hnoitem : CartItems.findOne (Cart.create s body.user_id body.email).2
      body.cart_items.product_id (Cart.create s body.user_id body.email).1._id = none := by
    unfold CartItems.findOne
    rw [List.find?_eq_none]
    intro i him
    have := (hwf.2.1 i him).2
    simp only [Cart.create] at him ⊢
    simp only [Bool.and_eq_true, beq_iff_eq, not_and]
    intro _
    omega
  unfold create cartItem
  simp only [hcart, hnoitem]
  exact ⟨rfl, rfl⟩

theorem create_of_new_product (s : Store) (body : CreateBody) (cart : Cart)
    (hc : s.carts.filter (fun c => c.user_id == body.user_id) = [cart])
    (hp : body.cart_items.product_id ∉
      (s.cart_items.filter (fun i => i.cart_id == cart._id)).map (fun i => i.product_id)) :
    (create s body).2.carts = s.carts ∧
    (create s body).2.cart_items =
      s.cart_items ++ [⟨s.next_id, cart._id, body.cart_items.product_id,
        body.cart_items.quantity, body.cart_items.amount, body.cart_items.total_amount,
        body.cart_items.image.getD ""⟩] := by
  have hfound : Cart.findOne s body.user_id = some cart :=
    find?_of_filter_singleton _ cart _ hc
  have hcart : userCart s body = (cart, s) := by
    unfold userCart; rw [hfound]
  have hnoitem : CartItems.findOne s body.cart_items.product_id cart._id = none := by
    unfold CartItems.findOne
    rw [List.find?_eq_none]
    intro i him hq
    simp only [Bool.and_eq_true, beq_iff_eq] at hq
    apply hp
    rw [List.mem_map]
    refine ⟨i, ?_, hq.1⟩
    rw [List.mem_filter]
    exact ⟨him, by simp [hq.2]⟩
  unfold create cartItem
  simp only [hcart, hnoitem]
  exact ⟨rfl, rfl⟩

theorem createStep_foldl_distinct (u : Nat) (cart : Cart) :
    ∀ (rest : List CreateBody) (s : Store) (last : Option CartItem),
      (∀ b ∈ rest, b.user_id = u) →
      s.carts.filter (fun c => c.user_id == u) = [cart] →
      ((s.cart_items.filter (fun i => i.cart_id == cart._id)).map (fun i => i.product_id) ++
        rest.map (fun b => b.cart_items.product_id)).Nodup →
      (rest.foldl createStep (last, s)).2.carts.filter (fun c => c.user_id == u) = [cart] ∧
      ((rest.foldl createStep (last, s)).2.cart_items.filter
          (fun i => i.cart_id == cart._id)).map CartItem.supplied =
        (s.cart_items.filter (fun i => i.cart_id == cart._id)).map CartItem.supplied ++
          rest.map CreateBody.supplied := by
  intro rest
  induction rest with
  | nil =>
    intro s last _ hc _
    exact ⟨hc, by simp⟩
  | cons b rest ih =>
    intro s last hsame hc hnd
    have hbu := hsame b (List.mem_cons_self _ _)
    subst hbu
    have hp : b.cart_items.product_id ∉
        (s.cart_items.filter (fun i => i.cart_id == cart._id)).map (fun i => i.product_id) := by
      intro hmem
      rw [List.nodup_append] at hnd
      exact hnd.2.2 hmem (by simp)
    obtain ⟨h1, h2⟩ := create_of_new_product s b cart hc hp
    have hfil : (create s b).2.cart_items.filter (fun i => i.cart_id == cart._id) =
        s.cart_items.filter (fun i => i.cart_id == cart._id) ++
          [⟨s.next_id, cart._id, b.cart_items.product_id, b.cart_items.quantity,
            b.cart_items.amount, b.cart_items.total_amount, b.cart_items.image.getD ""⟩] := by
      rw [h2, List.filter_append]
      simp
    rw [List.foldl_cons]
    have hstep : createStep (last, s) b =
        (some (create s b).1.cart_item, (create s b).2) := rfl
    rw [hstep]
    have hnd2 : (((create s b).2.cart_items.filter (fun i => i.cart_id == cart._id)).map
        (fun i => i.product_id) ++ rest.map (fun b => b.cart_items.product_id)).Nodup := by
      rw [hfil]
      simpa using hnd
    obtain ⟨g1, g2⟩ := ih (create s b).2 (some (create s b).1.cart_item)
      (fun x hx => hsame x (List.mem_cons_of_mem _ hx)) (by rw [h1]; exact hc) hnd2
    refine ⟨g1, ?_⟩
    rw [g2, hfil]
    simp [CartItem.supplied, CreateBody.supplied]

/-- C10, refuted as stated. Two `exports.create` calls for the new user 1 and
the products 7 and 8, all store calls served alternately. Without a unique
index on `user_id` both calls read `null` at line 12 and both create a cart:
both calls end with an answer and user 1 has two carts. With the index the
second `Cart.create` is rejected, the second call ends with that failure and
its line item is missing: one line item for two requests. -/
theorem create_race_counterexample :
    ((Conc.run false (Conc.start emptyStore
        [⟨1, "a@b.c", ⟨7, 2, 10, 20, none⟩⟩, ⟨1, "a@b.c", ⟨8, 3, 10, 30, none⟩⟩])
        [0, 1, 0, 1, 0, 1, 0, 1]).calls.all (fun r => r.pc.finished) = true ∧
      ((Conc.run false (Conc.start emptyStore
        [⟨1, "a@b.c", ⟨7, 2, 10, 20, none⟩⟩, ⟨1, "a@b.c", ⟨8, 3, 10, 30, none⟩⟩])
        [0, 1, 0, 1, 0, 1, 0, 1]).store.carts.filter (fun c => c.user_id == 1)).length = 2) ∧
    ((Conc.run true (Conc.start emptyStore
        [⟨1, "a@b.c", ⟨7, 2, 10, 20, none⟩⟩, ⟨1, "a@b.c", ⟨8, 3, 10, 30, none⟩⟩])
        [0, 1, 0, 1, 0, 1, 0, 1]).calls.all (fun r => r.pc.finished) = true ∧
      (Conc.run true (Conc.start emptyStore
        [⟨1, "a@b.c", ⟨7, 2, 10, 20, none⟩⟩, ⟨1, "a@b.c", ⟨8, 3, 10, 30, none⟩⟩])
        [0, 1, 0, 1, 0, 1, 0, 1]).store.cart_items.length = 1) := by
  decide

/-- The `+` of Numbers on known cases: small whole numbers add exactly;
`2^53 + 1` is `2^53` and `2^53 + 3` is `2^53 + 4` (ties to even); `0.1 + 0.2` is
`0.30000000000000004`; the largest double added to itself is `Infinity`. -/
theorem JsNumber.add_examples :
    (2 : JsNumber) + 3 = 5 ∧
    (9007199254740992 : JsNumber) + 1 = 9007199254740992 ∧
    (9007199254740992 : JsNumber) + 3 = 9007199254740996 ∧
    JsNumber.finite (3602879701896397 * ((1 <<< 1019 : Nat) : Int)) +
        JsNumber.finite (3602879701896397 * ((1 <<< 1020 : Nat) : Int)) =
      JsNumber.finite (5404319552844596 * ((1 <<< 1020 : Nat) : Int)) ∧
    JsNumber.finite (9007199254740991 * ((1 <<< 2045 : Nat) : Int)) +
        JsNumber.finite (9007199254740991 * ((1 <<< 2045 : Nat) : Int)) =
      JsNumber.infinity false := by
  decide

theorem JsNumber.topBit_le (m : Nat) :
    ∀ (fuel lo : Nat), 2 ^ lo ≤ m → 2 ^ JsNumber.topBit m fuel lo ≤ m := by
  intro fuel
  induction fuel with
  | zero => intro lo h; exact h
  | succ fuel ih =>
    intro lo h
    unfold JsNumber.topBit
    split
    · exact ih lo h
    · rename_i hne
      apply ih
      rw [Nat.shiftRight_eq_div_pow] at hne
      by_contra hlt
      exact hne (Nat.div_eq_of_lt (Nat.lt_of_not_le hlt))

theorem shiftRight_eq_zero_of_lt (m a b : Nat) (h : m < 2 ^ a) (hab : a ≤ b) :
    m >>> b = 0 := by
  rw [Nat.shiftRight_eq_div_pow]
  apply Nat.div_eq_of_lt
  exact Nat.lt_of_lt_of_le h (Nat.pow_le_pow_right (by decide) hab)

/-- A whole multiple of `2^e` units with fewer than 53 further bits, below the
overflow threshold, is a double. -/
theorem JsNumber.exact_of_dvd (k : Int) (e : Nat) (hdvd : 2 ^ e ∣ k.natAbs)
    (hlt : k.natAbs < 2 ^ (e + 53)) (he : e + 53 ≤ 2098) : JsNumber.Exact k := by
  unfold JsNumber.Exact JsNumber.round
  simp only
  split
  · rfl
  · rename_i h53
    have hpos : 2 ^ 0 ≤ k.natAbs := by
      rw [Nat.shiftRight_eq_div_pow] at h53
      by_contra hlt0
      have : k.natAbs = 0 := by
        simp only [pow_zero, not_le, Nat.lt_one_iff] at hlt0
        exact hlt0
      rw [this] at h53
      simp at h53
    have htop := JsNumber.topBit_le k.natAbs 12 0 hpos
    have htop2 : JsNumber.topBit k.natAbs 12 0 < e + 53 := by
      by_contra hge
      have := Nat.pow_le_pow_right (show 0 < 2 by decide) (Nat.le_of_not_lt hge)
      omega
    have hshift : JsNumber.topBit k.natAbs 12 0 - 52 ≤ e := by omega
    generalize JsNumber.topBit k.natAbs 12 0 - 52 = shift at hshift
    have hdvd2 : 2 ^ shift ∣ k.natAbs :=
      Nat.dvd_trans (Nat.pow_dvd_pow 2 hshift) hdvd
    have hq : (k.natAbs >>> shift) <<< shift = k.natAbs := by
      rw [Nat.shiftRight_eq_div_pow, Nat.shiftLeft_eq]
      exact Nat.div_mul_cancel hdvd2
    have hhalf : 0 < 1 <<< (shift - 1) := by
      rw [Nat.shiftLeft_eq, one_mul]
      exact Nat.two_pow_pos _
    have hr : k.natAbs - (k.natAbs >>> shift) <<< shift < 1 <<< (shift - 1) := by
      rw [hq, Nat.sub_self]
      exact hhalf
    rw [if_pos hr, hq]
    have hfin : k.natAbs >>> 2098 = 0 := shiftRight_eq_zero_of_lt _ _ _ hlt he
    rw [if_pos hfin]
    congr 1
    split <;> omega

theorem JsNumber.exact_of_scaled (n : Int) (w : Nat) (h : n.natAbs < 2 ^ 53)
    (hw : w + 53 ≤ 2098) : JsNumber.Exact (n * ((1 <<< w : Nat) : Int)) := by
  apply JsNumber.exact_of_dvd _ w
  · rw [Int.natAbs_mul, Int.natAbs_ofNat, Nat.shiftLeft_eq, one_mul]
    exact Nat.dvd_mul_left _ _
  · rw [Int.natAbs_mul, Int.natAbs_ofNat, Nat.shiftLeft_eq, one_mul, Nat.pow_add,
      Nat.mul_comm (2 ^ w)]
    exact Nat.mul_lt_mul_of_pos_right h (Nat.two_pow_pos _)
  · exact hw

/-- A whole number of magnitude below `2^53` is a double. -/
theorem JsNumber.exact_of_int (n : Int) (h : n.natAbs < 2 ^ 53) :
    JsNumber.Exact (n * ((1 <<< 1074 : Nat) : Int)) :=
  JsNumber.exact_of_scaled n 1074 h (by decide)

theorem JsNumber.finite_add (a b : Int) :
    JsNumber.finite a + JsNumber.finite b = JsNumber.round (a + b) := rfl

theorem createStep_foldl_exact (u p : Nat) :
    ∀ (rest : List CreateBody) (qs ts : List Int) (s : Store) (c : Cart) (it : CartItem)
      (Q T : Int),
      (∀ b ∈ rest, b.user_id = u ∧ b.cart_items.product_id = p) →
      rest.map (fun b => b.cart_items.quantity) = qs.map JsNumber.finite →
      rest.map (fun b => b.cart_items.total_amount) = ts.map JsNumber.finite →
      (∀ n, n ≤ qs.length → JsNumber.Exact (Q + (qs.take n).sum)) →
      (∀ n, n ≤ ts.length → JsNumber.Exact (T + (ts.take n).sum)) →
      WellFormed s → Cart.findOne s u = some c →
      s.cart_items.filter (fun i => i.product_id == p && i.cart_id == c._id) = [it] →
      it.quantity = JsNumber.finite Q → it.total_amount = JsNumber.finite T →
      ∃ it2, (rest.foldl createStep (some it, s)).1 = some it2 ∧
        Cart.findOne (rest.foldl createStep (some it, s)).2 u = some c ∧
        (rest.foldl createStep (some it, s)).2.cart_items.filter
          (fun i => i.product_id == p && i.cart_id == c._id) = [it2] ∧
        it2.quantity = JsNumber.finite (Q + qs.sum) ∧
        it2.total_amount = JsNumber.finite (T + ts.sum) := by
  intro rest
  induction rest with
  | nil =>
    intro qs ts s c it Q T _ hq ht _ _ _ hc hfil hQ hT
    have hqs : qs = [] := by simpa using hq.symm
    have hts : ts = [] := by simpa using ht.symm
    subst hqs
    subst hts
    exact ⟨it, rfl, hc, hfil, by simpa using hQ, by simpa using hT⟩
  | cons b rest ih =>
    intro qs ts s c it Q T hsame hq ht hqe hte hwf hc hfil hQ hT
    obtain ⟨hbu, hbp⟩ := hsame b (List.mem_cons_self _ _)
    subst hbu
    subst hbp
    cases qs with
    | nil => simp at hq
    | cons q qs =>
    cases ts with
    | nil => simp at ht
    | cons t0 ts =>
    simp only [List.map_cons, List.cons.injEq] at hq ht
    obtain ⟨h1, h2, h3⟩ := create_merge_step s b c it hwf hc hfil
    have hstep : createStep (some it, s) b = (some (merge b it), (create s b).2) := by
      unfold createStep
      simp only [h1]
    rw [List.foldl_cons, hstep]
    have hq1 : (merge b it).quantity = JsNumber.finite (Q + q) := by
      have e := hqe 1 (by simp)
      simp only [List.take_succ_cons, List.take_zero, List.sum_cons, List.sum_nil,
        add_zero] at e
      show b.cart_items.quantity + it.quantity = _
      rw [hq.1, hQ, JsNumber.finite_add, add_comm q Q]
      exact e
    have ht1 : (merge b it).total_amount = JsNumber.finite (T + t0) := by
      have e := hte 1 (by simp)
      simp only [List.take_succ_cons, List.take_zero, List.sum_cons, List.sum_nil,
        add_zero] at e
      show b.cart_items.total_amount + it.total_amount = _
      rw [ht.1, hT, JsNumber.finite_add, add_comm t0 T]
      exact e
    obtain ⟨it2, g1, g2, g3, g4, g5⟩ := ih qs ts (create s b).2 c (merge b it) (Q + q) (T + t0)
      (fun x hx => hsame x (List.mem_cons_of_mem _ hx)) hq.2 ht.2
      (fun n hn => by
        have e := hqe (n + 1) (by simpa using hn)
        simpa [List.take_succ_cons, add_assoc] using e)
      (fun n hn => by
        have e := hte (n + 1) (by simpa using hn)
        simpa [List.take_succ_cons, add_assoc] using e)
      (create_wf s b hwf) h2 h3 hq1 ht1
    refine ⟨it2, g1, g2, g3, ?_, ?_⟩
    · rw [g4, List.sum_cons, add_assoc]
    · rw [g5, List.sum_cons, add_assoc]

/-- C1, as amended. Accumulation law for sums that are exact. From a store with
ids handed out by the id generator in which the user's cart (if any) has no
line item for the product, take a non-empty sequence of `exports.create` calls
for that user and that product, served one after the other, whose quantities
and totals are finite Numbers with the property that every partial sum
`q1+...+qk` and `t1+...+tk` is itself a Number (a double). Then the store
afterwards holds exactly one line item for the user's cart and the product; its
`quantity` is the sum of the supplied quantities, its `total_amount` the sum of
the supplied totals, and it is the line item the last call answered with. -/
theorem create_accumulates_exact (s : Store) (u p : Nat) (bodies : List CreateBody)
    (qs ts : List Int)
    (hwf : WellFormed s) (hne : bodies ≠ [])
    (hsame : ∀ b ∈ bodies, b.user_id = u ∧ b.cart_items.product_id = p)
    (hfresh : ∀ c, Cart.findOne s u = some c → CartItems.findOne s p c._id = none)
    (hq : bodies.map (fun b => b.cart_items.quantity) = qs.map JsNumber.finite)
    (ht : bodies.map (fun b => b.cart_items.total_amount) = ts.map JsNumber.finite)
    (hqe : ∀ n, n ≤ qs.length → JsNumber.Exact (qs.take n).sum)
    (hte : ∀ n, n ≤ ts.length → JsNumber.Exact (ts.take n).sum) :
    ∃ cart item,
      Cart.findOne (createAll s bodies).2 u = some cart ∧
      (createAll s bodies).2.cart_items.filter
        (fun i => i.product_id == p && i.cart_id == cart._id) = [item] ∧
      item.quantity = JsNumber.finite qs.sum ∧
      item.total_amount = JsNumber.finite ts.sum ∧
      (createAll s bodies).1 = some item := by
  cases bodies with
  | nil => exact absurd rfl hne
  | cons b rest =>
    cases qs with
    | nil => simp at hq
    | cons q qs =>
    cases ts with
    | nil => simp at ht
    | cons t0 ts =>
    simp only [List.map_cons, List.cons.injEq] at hq ht
    obtain ⟨hbu, hbp⟩ := hsame b (List.mem_cons_self _ _)
    subst hbu
    subst hbp
    obtain ⟨c, f1, f2, f3, f4⟩ := create_first_step s b hwf hfresh
    obtain ⟨it2, g1, g2, g3, g4, g5⟩ := createStep_foldl_exact b.user_id
      b.cart_items.product_id rest qs ts (create s b).2 c (create s b).1.cart_item q t0
      (fun x hx => hsame x (List.mem_cons_of_mem _ hx)) hq.2 ht.2
      (fun n hn => by
        have e := hqe (n + 1) (by simpa using hn)
        simpa [List.take_succ_cons] using e)
      (fun n hn => by
        have e := hte (n + 1) (by simpa using hn)
        simpa [List.take_succ_cons] using e)
      (create_wf s b hwf) f1 f2 (by rw [f3, hq.1]) (by rw [f4, ht.1])
    have hall : createAll s (b :: rest) =
        rest.foldl createStep (some (create s b).1.cart_item, (create s b).2) := rfl
    rw [hall]
    exact ⟨c, it2, g2, g3, by rw [g4, List.sum_cons], by rw [g5, List.sum_cons], g1⟩

theorem create_accumulates_exact_witness :
    ∃ cart item,
      Cart.findOne (createAll emptyStore
        [⟨1, "a@b.c", ⟨7, 2, 10, 20, none⟩⟩, ⟨1, "a@b.c", ⟨7, 3, 10, 30, none⟩⟩]).2 1
        = some cart ∧
      (createAll emptyStore
        [⟨1, "a@b.c", ⟨7, 2, 10, 20, none⟩⟩, ⟨1, "a@b.c", ⟨7, 3, 10, 30, none⟩⟩]).2.cart_items.filter
        (fun i => i.product_id == 7 && i.cart_id == cart._id) = [item] ∧
      item.quantity = 5 ∧ item.total_amount = 50 ∧
      (createAll emptyStore
        [⟨1, "a@b.c", ⟨7, 2, 10, 20, none⟩⟩, ⟨1, "a@b.c", ⟨7, 3, 10, 30, none⟩⟩]).1
        = some item := by
  obtain ⟨cart, item, h1, h2, h3, h4, h5⟩ := create_accumulates_exact emptyStore 1 7
    [⟨1, "a@b.c", ⟨7, 2, 10, 20, none⟩⟩, ⟨1, "a@b.c", ⟨7, 3, 10, 30, none⟩⟩]
    [2 * ((1 <<< 1074 : Nat) : Int), 3 * ((1 <<< 1074 : Nat) : Int)]
    [20 * ((1 <<< 1074 : Nat) : Int), 30 * ((1 <<< 1074 : Nat) : Int)]
    (by decide) (by decide) (by decide) (by decide) (by decide) (by decide)
    (by decide) (by decide)
  exact ⟨cart, item, h1, h2, h3.trans (by decide), h4.trans (by decide), h5⟩

/-- C1, refuted as stated. Three `exports.create` calls for user 1 and product 7
with the quantities `2^53`, 1 and 1, served one after the other from the empty
store. The sum `2^53 + 2` is a Number, yet the line item the last call answers
with, the one in the store, has quantity `2^53`: each `+ 1` of line 38 is
rounded away. -/
theorem create_accumulates_counterexample :
    (createAll emptyStore
        [⟨1, "a@b.c", ⟨7, 9007199254740992, 1, 1, none⟩⟩, ⟨1, "a@b.c", ⟨7, 1, 1, 1, none⟩⟩,
         ⟨1, "a@b.c", ⟨7, 1, 1, 1, none⟩⟩]).1.map (fun i => i.quantity)
      = some 9007199254740992 ∧
    (createAll emptyStore
        [⟨1, "a@b.c", ⟨7, 9007199254740992, 1, 1, none⟩⟩, ⟨1, "a@b.c", ⟨7, 1, 1, 1, none⟩⟩,
         ⟨1, "a@b.c", ⟨7, 1, 1, 1, none⟩⟩]).2.cart_items.map (fun i => i.quantity)
      = [9007199254740992] ∧
    (9007199254740992 : JsNumber) ≠ 9007199254740994 ∧
    (9007199254740994 : JsNumber) =
      JsNumber.finite (9007199254740994 * ((1 <<< 1074 : Nat) : Int)) ∧
    JsNumber.Exact (9007199254740994 * ((1 <<< 1074 : Nat) : Int)) := by
  decide

theorem get?_set_self {α : Type} (a : α) :
    ∀ (l : List α) (k : Nat) (r : α), l.get? k = some r → (l.set k a).get? k = some a := by
  intro l
  induction l with
  | nil => intro k r h; cases h
  | cons x rest ih =>
    intro k r h
    cases k with
    | zero => rfl
    | succ k => exact ih k r h

theorem get?_set_ne {α : Type} (a : α) :
    ∀ (l : List α) (k i : Nat), i ≠ k → (l.set k a).get? i = l.get? i := by
  intro l
  induction l with
  | nil => intro k i _; rfl
  | cons x rest ih =>
    intro k i h
    cases k with
    | zero =>
      cases i with
      | zero => exact absurd rfl h
      | succ i => rfl
    | succ k =>
      cases i with
      | zero => rfl
      | succ i => exact ih k i (fun e => h (by rw [e]))

theorem map_set_same {α β : Type} (f : α → β) (a : α) :
    ∀ (l : List α) (k : Nat) (r : α), l.get? k = some r → f a = f r →
      (l.set k a).map f = l.map f := by
  intro l
  induction l with
  | nil => intro k r h; cases h
  | cons x rest ih =>
    intro k r h hf
    cases k with
    | zero =>
      have hx : x = r := by
        have h2 : some x = some r := h
        exact Option.some.inj h2
      show f a :: rest.map f = f x :: rest.map f
      rw [hf, hx]
    | succ k =>
      show f x :: (rest.set k a).map f = f x :: rest.map f
      rw [ih k r h hf]

theorem mem_of_get? {α : Type} :
    ∀ (l : List α) (k : Nat) (r : α), l.get? k = some r → r ∈ l := by
  intro l
  induction l with
  | nil => intro k r h; cases h
  | cons x rest ih =>
    intro k r h
    cases k with
    | zero =>
      have h2 : some x = some r := h
      rw [← Option.some.inj h2]
      exact List.mem_cons_self _ _
    | succ k => exact List.mem_cons_of_mem _ (ih k r h)

theorem get?_of_mem {α : Type} :
    ∀ (l : List α) (r : α), r ∈ l → ∃ k, l.get? k = some r := by
  intro l
  induction l with
  | nil => intro r h; cases h
  | cons x rest ih =>
    intro r h
    rw [List.mem_cons] at h
    rcases h with h | h
    · exact ⟨0, by rw [h]; rfl⟩
    · obtain ⟨k, hk⟩ := ih r h
      exact ⟨k + 1, hk⟩

theorem findOne_of_cart (s : Store) (u : Nat) (c : Cart)
    (h : s.carts.filter (fun x => x.user_id == u) = [c]) : Cart.findOne s u = some c :=
  find?_of_filter_singleton _ c _ h

theorem findOne_item_none (s : Store) (p : Nat) (c : Cart)
    (h : p ∉ (s.cart_items.filter (fun i => i.cart_id == c._id)).map (fun i => i.product_id)) :
    CartItems.findOne s p c._id = none := by
  unfold CartItems.findOne
  rw [List.find?_eq_none]
  intro i him hq
  simp only [Bool.and_eq_true, beq_iff_eq] at hq
  apply h
  rw [List.mem_map]
  refine ⟨i, ?_, hq.1⟩
  rw [List.mem_filter]
  exact ⟨him, by simp [hq.2]⟩

theorem CreatePc.step_cases (uniqueUser : Bool) (u : Nat) (c : Cart) (s : Store)
    (body : CreateBody) (pc : CreatePc)
    (hcart : s.carts.filter (fun x => x.user_id == u) = [c]) (hu : body.user_id = u)
    (hpc : CreatePc.holds c pc)
    (hfree : (∀ it, pc ≠ CreatePc.done it) → body.cart_items.product_id ∉
      (s.cart_items.filter (fun i => i.cart_id == c._id)).map (fun i => i.product_id)) :
    ((CreatePc.step uniqueUser body s pc).2 = s ∧
      CreatePc.holds c (CreatePc.step uniqueUser body s pc).1 ∧
      (∀ it, (CreatePc.step uniqueUser body s pc).1 = CreatePc.done it ↔
        pc = CreatePc.done it)) ∨
    (pc = CreatePc.createItem c ∧
      (CreatePc.step uniqueUser body s pc).1 =
        CreatePc.done ⟨s.next_id, c._id, body.cart_items.product_id, body.cart_items.quantity,
          body.cart_items.amount, body.cart_items.total_amount,
          body.cart_items.image.getD ""⟩ ∧
      (CreatePc.step uniqueUser body s pc).2 =
        { s with
          cart_items := s.cart_items ++ [⟨s.next_id, c._id, body.cart_items.product_id,
            body.cart_items.quantity, body.cart_items.amount, body.cart_items.total_amount,
            body.cart_items.image.getD ""⟩],
          next_id := s.next_id + 1 }) := by
  cases pc with
  | findCart =>
    left
    have hf : Cart.findOne s body.user_id = some c := by
      rw [hu]; exact findOne_of_cart s u c hcart
    simp only [CreatePc.step, hf]
    refine ⟨trivial, rfl, ?_⟩
    intro it
    constructor <;> intro h <;> cases h
  | createCart => exact absurd hpc (by simp [CreatePc.holds])
  | findItem user_cart =>
    left
    have hc : user_cart = c := hpc
    subst hc
    have hn := findOne_item_none s body.cart_items.product_id user_cart
      (hfree (fun it h => by cases h))
    simp only [CreatePc.step, hn]
    refine ⟨trivial, rfl, ?_⟩
    intro it
    constructor <;> intro h <;> cases h
  | createItem user_cart =>
    right
    have hc : user_cart = c := hpc
    subst hc
    exact ⟨rfl, rfl, rfl⟩
  | saveItem it => exact absurd hpc (by simp [CreatePc.holds])
  | done it =>
    left
    exact ⟨rfl, trivial, fun _ => Iff.rfl⟩
  | failed e => exact absurd hpc (by simp [CreatePc.holds])

theorem Conc.Settled.free {u : Nat} {bodies : List CreateBody} {c : Cart} {st : Conc}
    (h : Conc.Settled u bodies c st)
    (hdistinct : (bodies.map (fun b => b.cart_items.product_id)).Nodup)
    (r : Running) (hr : r ∈ st.calls) (hnot : ∀ it, r.pc ≠ CreatePc.done it) :
    r.body.cart_items.product_id ∉
      (st.store.cart_items.filter (fun i => i.cart_id == c._id)).map
        (fun i => i.product_id) := by
  intro hmem
  rw [List.mem_map] at hmem
  obtain ⟨it, hit, hp⟩ := hmem
  rw [List.mem_filter] at hit
  have hcid : it.cart_id = c._id := by simpa using hit.2
  obtain ⟨r2, hr2, hdone⟩ := h.owned it hit.1 hcid
  have hsup := (h.answered r2 hr2 it hdone).2.2
  have hprod : r2.body.cart_items.product_id = r.body.cart_items.product_id := by
    have := congrArg Prod.fst hsup
    simp only [CartItem.supplied, CreateBody.supplied] at this
    rw [← this, hp]
  have hnd : (st.calls.map (fun r => r.body.cart_items.product_id)).Nodup := by
    have e : st.calls.map (fun r => r.body.cart_items.product_id) =
        (st.calls.map (fun r => r.body)).map (fun b => b.cart_items.product_id) := by
      rw [List.map_map]; rfl
    rw [e, h.bodies]
    exact hdistinct
  have heq : r2 = r := List.inj_on_of_nodup_map hnd hr2 hr hprod
  rw [heq] at hdone
  exact hnot it hdone

theorem Conc.step_eq (uniqueUser : Bool) (st : Conc) (k : Nat) (r : Running)
    (hk : st.calls.get? k = some r) :
    Conc.step uniqueUser st k =
      { store := (CreatePc.step uniqueUser r.body st.store r.pc).2,
        calls := st.calls.set k
          { body := r.body, pc := (CreatePc.step uniqueUser r.body st.store r.pc).1 } } := by
  unfold Conc.step
  rw [hk]

theorem Conc.step_settled (uniqueUser : Bool) (u : Nat) (bodies : List CreateBody) (c : Cart)
    (st : Conc) (k : Nat) (hs : Conc.Settled u bodies c st)
    (hsame : ∀ b ∈ bodies, b.user_id = u)
    (hdistinct : (bodies.map (fun b => b.cart_items.product_id)).Nodup) :
    Conc.Settled u bodies c (Conc.step uniqueUser st k) := by
  cases hk : st.calls.get? k with
  | none =>
    have e : Conc.step uniqueUser st k = st := by
      unfold Conc.step; rw [hk]
    rw [e]; exact hs
  | some r =>
    have hr : r ∈ st.calls := mem_of_get? _ k r hk
    have hu : r.body.user_id = u := by
      apply hsame
      rw [← hs.bodies]
      exact List.mem_map_of_mem (fun r => r.body) hr
    rw [Conc.step_eq uniqueUser st k r hk]
    have hself := get?_set_self
      ({ body := r.body, pc := (CreatePc.step uniqueUser r.body st.store r.pc).1 } : Running)
      st.calls k r hk
    have hnew := mem_of_get? _ k _ hself
    rcases CreatePc.step_cases uniqueUser u c st.store r.body r.pc hs.cart hu (hs.pcs r hr)
      (fun hnot => hs.free hdistinct r hr hnot) with ⟨h1, h2, h3⟩ | ⟨h1, h2, h3⟩
    · refine ⟨?_, ?_, ?_, ?_, ?_, ?_⟩
      · show (CreatePc.step uniqueUser r.body st.store r.pc).2.carts.filter _ = _
        rw [h1]; exact hs.cart
      · show (st.calls.set k _).map (fun r => r.body) = bodies
        exact (map_set_same (fun r : Running => r.body)
          ⟨r.body, (CreatePc.step uniqueUser r.body st.store r.pc).1⟩ st.calls k r hk
          rfl).trans hs.bodies
      · intro x hx
        rcases List.mem_or_eq_of_mem_set hx with hx | hx
        · exact hs.pcs x hx
        · rw [hx]; exact h2
      · intro x hx it hdone
        show it ∈ (CreatePc.step uniqueUser r.body st.store r.pc).2.cart_items ∧ _
        rw [h1]
        rcases List.mem_or_eq_of_mem_set hx with hx | hx
        · exact hs.answered x hx it hdone
        · rw [hx] at hdone ⊢
          exact hs.answered r hr it ((h3 it).1 hdone)
      · intro it hit hcid
        have hit2 : it ∈ st.store.cart_items := by
          have hit1 : it ∈ (CreatePc.step uniqueUser r.body st.store r.pc).2.cart_items := hit
          rw [h1] at hit1
          exact hit1
        obtain ⟨r0, hr0, hdone⟩ := hs.owned it hit2 hcid
        obtain ⟨i, hi⟩ := get?_of_mem _ r0 hr0
        by_cases hik : i = k
        · rw [hik, hk] at hi
          have e : r = r0 := Option.some.inj hi
          rw [← e] at hdone
          exact ⟨_, hnew, (h3 it).2 hdone⟩
        · refine ⟨r0, ?_, hdone⟩
          apply mem_of_get? _ i
          rw [get?_set_ne _ _ _ _ hik]
          exact hi
      · show ((CreatePc.step uniqueUser r.body st.store r.pc).2.cart_items.filter _).map _ |>.Nodup
        rw [h1]; exact hs.distinct
    · have hfree := hs.free hdistinct r hr (fun it hd => by rw [h1] at hd; cases hd)
      refine ⟨?_, ?_, ?_, ?_, ?_, ?_⟩
      · show (CreatePc.step uniqueUser r.body st.store r.pc).2.carts.filter _ = _
        rw [h3]; exact hs.cart
      · show (st.calls.set k _).map (fun r => r.body) = bodies
        exact (map_set_same (fun r : Running => r.body)
          ⟨r.body, (CreatePc.step uniqueUser r.body st.store r.pc).1⟩ st.calls k r hk
          rfl).trans hs.bodies
      · intro x hx
        rcases List.mem_or_eq_of_mem_set hx with hx | hx
        · exact hs.pcs x hx
        · rw [hx, h2]; trivial
      · intro x hx it hdone
        show it ∈ (CreatePc.step uniqueUser r.body st.store r.pc).2.cart_items ∧ _
        rw [h3]
        rcases List.mem_or_eq_of_mem_set hx with hx | hx
        · obtain ⟨a1, a2, a3⟩ := hs.answered x hx it hdone
          exact ⟨List.mem_append_left _ a1, a2, a3⟩
        · rw [hx] at hdone ⊢
          rw [h2] at hdone
          have e := CreatePc.done.inj hdone
          rw [← e]
          exact ⟨List.mem_append_right _ (List.mem_singleton_self _), rfl, rfl⟩
      · intro it hit hcid
        have hit2 : it ∈ st.store.cart_items ++
            [⟨st.store.next_id, c._id, r.body.cart_items.product_id,
              r.body.cart_items.quantity, r.body.cart_items.amount,
              r.body.cart_items.total_amount, r.body.cart_items.image.getD ""⟩] := by
          have hit1 : it ∈ (CreatePc.step uniqueUser r.body st.store r.pc).2.cart_items := hit
          rw [h3] at hit1
          exact hit1
        rw [List.mem_append, List.mem_singleton] at hit2
        rcases hit2 with hit2 | hit2
        · obtain ⟨r0, hr0, hdone⟩ := hs.owned it hit2 hcid
          obtain ⟨i, hi⟩ := get?_of_mem _ r0 hr0
          have hik : i ≠ k := by
            intro hik
            rw [hik, hk] at hi
            have e : r = r0 := Option.some.inj hi
            rw [← e, h1] at hdone
            cases hdone
          refine ⟨r0, ?_, hdone⟩
          apply mem_of_get? _ i
          rw [get?_set_ne _ _ _ _ hik]
          exact hi
        · exact ⟨_, hnew, by rw [h2, hit2]⟩
      · show ((CreatePc.step uniqueUser r.body st.store r.pc).2.cart_items.filter _).map _ |>.Nodup
        rw [h3]
        simp only [List.filter_append, List.filter_cons, beq_self_eq_true, if_true,
          List.filter_nil, List.map_append, List.map_cons, List.map_nil]
        rw [List.nodup_append]
        refine ⟨hs.distinct, List.nodup_singleton _, ?_⟩
        intro p hp hp2
        rw [List.mem_singleton] at hp2
        rw [hp2] at hp
        exact hfree hp

theorem Conc.run_settled (uniqueUser : Bool) (u : Nat) (bodies : List CreateBody) (c : Cart)
    (hsame : ∀ b ∈ bodies, b.user_id = u)
    (hdistinct : (bodies.map (fun b => b.cart_items.product_id)).Nodup) :
    ∀ (schedule : List Nat) (st : Conc), Conc.Settled u bodies c st →
      Conc.Settled u bodies c (Conc.run uniqueUser st schedule) := by
  intro schedule
  induction schedule with
  | nil => intro st hs; exact hs
  | cons k rest ih =>
    intro st hs
    exact ih _ (Conc.step_settled uniqueUser u bodies c st k hs hsame hdistinct)

/-- Served one after the other, the calls of a non-empty list of requests of one
user who has no cart yet, for pairwise distinct products, leave exactly one cart
of that user whose line items are, in the order of the calls, one per request
with the values it supplied. -/
theorem createAll_distinct (s : Store) (u : Nat) (bodies : List CreateBody)
    (hwf : WellFormed s) (hnew : Cart.findOne s u = none) (hne : bodies ≠ [])
    (hsame : ∀ b ∈ bodies, b.user_id = u)
    (hdistinct : (bodies.map (fun b => b.cart_items.product_id)).Nodup) :
    ∃ cart,
      (createAll s bodies).2.carts.filter (fun c => c.user_id == u) = [cart] ∧
      ((createAll s bodies).2.cart_items.filter (fun i => i.cart_id == cart._id)).map
          CartItem.supplied = bodies.map CreateBody.supplied ∧
      ((createAll s bodies).2.cart_items.filter (fun i => i.cart_id == cart._id)).length =
          bodies.length ∧
      (((createAll s bodies).2.cart_items.filter (fun i => i.cart_id == cart._id)).map
          (fun i => i.product_id)).Nodup := by
  cases bodies with
  | nil => exact absurd rfl hne
  | cons b rest =>
    have hbu := hsame b (List.mem_cons_self _ _)
    subst hbu
    obtain ⟨h1, h2⟩ := create_of_new_user s b hwf hnew
    have hnofil : s.carts.filter (fun c => c.user_id == b.user_id) = [] := by
      unfold Cart.findOne at hnew
      rw [List.find?_eq_none] at hnew
      rw [List.filter_eq_nil_iff]
      exact hnew
    have hnoitem : s.cart_items.filter (fun i => i.cart_id == s.next_id) = [] := by
      rw [List.filter_eq_nil_iff]
      intro i him
      have := (hwf.2.1 i him).2
      simp only [beq_iff_eq]
      omega
    have hc : (create s b).2.carts.filter (fun c => c.user_id == b.user_id) =
        [⟨s.next_id, b.user_id, b.email⟩] := by
      rw [h1, List.filter_append, hnofil]
      simp
    have hfil : (create s b).2.cart_items.filter (fun i => i.cart_id == s.next_id) =
        [⟨s.next_id + 1, s.next_id, b.cart_items.product_id, b.cart_items.quantity,
          b.cart_items.amount, b.cart_items.total_amount, b.cart_items.image.getD ""⟩] := by
      rw [h2, List.filter_append, hnoitem]
      simp
    have hnd : (((create s b).2.cart_items.filter (fun i => i.cart_id ==
        (⟨s.next_id, b.user_id, b.email⟩ : Cart)._id)).map (fun i => i.product_id) ++
        rest.map (fun b => b.cart_items.product_id)).Nodup := by
      rw [hfil]
      simpa using hdistinct
    obtain ⟨g1, g2⟩ := createStep_foldl_distinct b.user_id ⟨s.next_id, b.user_id, b.email⟩ rest
      (create s b).2 (some (create s b).1.cart_item)
      (fun x hx => hsame x (List.mem_cons_of_mem _ hx)) hc hnd
    have hall : createAll s (b :: rest) =
        rest.foldl createStep (some (create s b).1.cart_item, (create s b).2) := rfl
    rw [hall]
    have hmap : ((rest.foldl createStep (some (create s b).1.cart_item,
        (create s b).2)).2.cart_items.filter (fun i => i.cart_id ==
          (⟨s.next_id, b.user_id, b.email⟩ : Cart)._id)).map CartItem.supplied =
        (b :: rest).map CreateBody.supplied := by
      rw [g2, hfil]
      simp [CartItem.supplied, CreateBody.supplied]
    refine ⟨⟨s.next_id, b.user_id, b.email⟩, g1, hmap, ?_, ?_⟩
    · have := congrArg List.length hmap
      simpa using this
    · have hprod := congrArg (List.map Prod.fst) hmap
      simp only [List.map_map] at hprod
      have e1 : (Prod.fst ∘ CartItem.supplied) = (fun i : CartItem => i.product_id) := rfl
      have e2 : (Prod.fst ∘ CreateBody.supplied) =
          (fun b : CreateBody => b.cart_items.product_id) := rfl
      rw [e1, e2] at hprod
      rw [hprod]
      exact hdistinct

theorem set_set_same {α : Type} (a b : α) :
    ∀ (l : List α) (k : Nat), (l.set k a).set k b = l.set k b := by
  intro l
  induction l with
  | nil => intro k; rfl
  | cons x rest ih =>
    intro k
    cases k with
    | zero => rfl
    | succ k =>
      show x :: (rest.set k a).set k b = x :: rest.set k b
      rw [ih k]

theorem get?_of_lt {α : Type} :
    ∀ (l : List α) (k : Nat), k < l.length → ∃ a, l.get? k = some a := by
  intro l
  induction l with
  | nil => intro k h; simp at h
  | cons x rest ih =>
    intro k h
    cases k with
    | zero => exact ⟨x, rfl⟩
    | succ k => exact ih k (by simpa using h)

theorem get?_map_some {α β : Type} (f : α → β) :
    ∀ (l : List α) (k : Nat) (a : α), l.get? k = some a → (l.map f).get? k = some (f a) := by
  intro l
  induction l with
  | nil => intro k a h; cases h
  | cons x rest ih =>
    intro k a h
    cases k with
    | zero =>
      have h2 : some x = some a := h
      rw [← Option.some.inj h2]
      rfl
    | succ k => exact ih k a h

theorem Conc.run_first_two (uniqueUser : Bool) (s : Store) (bodies : List CreateBody)
    (k : Nat) (b : CreateBody) (hk : bodies.get? k = some b)
    (hnew : Cart.findOne s b.user_id = none) :
    Conc.run uniqueUser (Conc.start s bodies) [k, k] =
      { store := { s with carts := s.carts ++ [⟨s.next_id, b.user_id, b.email⟩],
                          next_id := s.next_id + 1 },
        calls := (Conc.start s bodies).calls.set k
          { body := b, pc := CreatePc.findItem ⟨s.next_id, b.user_id, b.email⟩ } } := by
  have h0 : (Conc.start s bodies).calls.get? k = some ⟨b, CreatePc.findCart⟩ :=
    get?_map_some (fun b => ({ body := b, pc := CreatePc.findCart } : Running)) bodies k b hk
  have e1 : Conc.step uniqueUser (Conc.start s bodies) k =
      { store := s,
        calls := (Conc.start s bodies).calls.set k ⟨b, CreatePc.createCart⟩ } := by
    rw [Conc.step_eq uniqueUser _ k _ h0]
    have hnew2 : Cart.findOne (Conc.start s bodies).store b.user_id = none := hnew
    simp only [CreatePc.step, hnew2]
    rfl
  have h1 : ((Conc.start s bodies).calls.set k ⟨b, CreatePc.createCart⟩).get? k =
      some ⟨b, CreatePc.createCart⟩ := get?_set_self _ _ k _ h0
  have hx := createIndexed_of_none uniqueUser s b.user_id b.email hnew
  show Conc.step uniqueUser (Conc.step uniqueUser (Conc.start s bodies) k) k = _
  rw [e1, Conc.step_eq uniqueUser _ k _ h1]
  simp only [CreatePc.step, hx, set_set_same]
  rfl

theorem Conc.settled_first_two (uniqueUser : Bool) (s : Store) (u : Nat)
    (bodies : List CreateBody) (k : Nat) (b : CreateBody) (hk : bodies.get? k = some b)
    (hwf : WellFormed s) (hnew : Cart.findOne s u = none) (hu : b.user_id = u) :
    Conc.Settled u bodies ⟨s.next_id, u, b.email⟩
      (Conc.run uniqueUser (Conc.start s bodies) [k, k]) := by
  subst hu
  rw [Conc.run_first_two uniqueUser s bodies k b hk hnew]
  have h0 : (Conc.start s bodies).calls.get? k = some ⟨b, CreatePc.findCart⟩ :=
    get?_map_some (fun b => ({ body := b, pc := CreatePc.findCart } : Running)) bodies k b hk
  have hstart : ∀ x ∈ (Conc.start s bodies).calls, x.pc = CreatePc.findCart := by
    intro x hx
    simp only [Conc.start, List.mem_map] at hx
    obtain ⟨_, _, e⟩ := hx
    rw [← e]
  refine ⟨?_, ?_, ?_, ?_, ?_, ?_⟩
  · have hnofil : s.carts.filter (fun c => c.user_id == b.user_id) = [] := by
      unfold Cart.findOne at hnew
      rw [List.find?_eq_none] at hnew
      rw [List.filter_eq_nil_iff]
      exact hnew
    show (s.carts ++ [_]).filter _ = _
    rw [List.filter_append, hnofil]
    simp
  · show ((Conc.start s bodies).calls.set k _).map (fun r => r.body) = bodies
    rw [map_set_same (fun r : Running => r.body)
      ⟨b, CreatePc.findItem ⟨s.next_id, b.user_id, b.email⟩⟩ _ k _ h0 rfl]
    simp only [Conc.start, List.map_map]
    exact List.map_id _
  · intro x hx
    rcases List.mem_or_eq_of_mem_set hx with hx | hx
    · rw [hstart x hx]; trivial
    · rw [hx]; rfl
  · intro x hx it hdone
    rcases List.mem_or_eq_of_mem_set hx with hx | hx
    · rw [hstart x hx] at hdone; cases hdone
    · rw [hx] at hdone; cases hdone
  · intro it hit hcid
    have h1 : it ∈ s.cart_items := hit
    have h2 : it.cart_id = s.next_id := hcid
    have := (hwf.2.1 it h1).2
    omega
  · have hnoitem : s.cart_items.filter (fun i => i.cart_id == s.next_id) = [] := by
      rw [List.filter_eq_nil_iff]
      intro i him
      have := (hwf.2.1 i him).2
      simp only [beq_iff_eq]
      omega
    show ((s.cart_items.filter (fun i => i.cart_id == s.next_id)).map _).Nodup
    rw [hnoitem]
    exact List.nodup_nil

theorem Conc.Settled.outcome {u : Nat} {bodies : List CreateBody} {c : Cart} {st : Conc}
    (hs : Conc.Settled u bodies c st)
    (hdistinct : (bodies.map (fun b => b.cart_items.product_id)).Nodup)
    (hfin : st.calls.all (fun r => r.pc.finished) = true) :
    st.store.carts.filter (fun x => x.user_id == u) = [c] ∧
    ((st.store.cart_items.filter (fun i => i.cart_id == c._id)).map CartItem.supplied).Perm
      (bodies.map CreateBody.supplied) ∧
    (st.store.cart_items.filter (fun i => i.cart_id == c._id)).length = bodies.length ∧
    ((st.store.cart_items.filter (fun i => i.cart_id == c._id)).map
      (fun i => i.product_id)).Nodup ∧
    (∀ r ∈ st.calls, ∃ it, r.pc = CreatePc.done it) := by
  rw [List.all_eq_true] at hfin
  have hdone : ∀ r ∈ st.calls, ∃ it, r.pc = CreatePc.done it := by
    intro r hr
    have h1 := hs.pcs r hr
    have h2 := hfin r hr
    cases hpc : r.pc with
    | done it => exact ⟨it, rfl⟩
    | findCart => rw [hpc] at h2; simp [CreatePc.finished] at h2
    | createCart => rw [hpc] at h1; exact absurd h1 (by simp [CreatePc.holds])
    | findItem _ => rw [hpc] at h2; simp [CreatePc.finished] at h2
    | createItem _ => rw [hpc] at h2; simp [CreatePc.finished] at h2
    | saveItem _ => rw [hpc] at h1; exact absurd h1 (by simp [CreatePc.holds])
    | failed _ => rw [hpc] at h1; exact absurd h1 (by simp [CreatePc.holds])
  have hnd1 : ((st.store.cart_items.filter (fun i => i.cart_id == c._id)).map
      CartItem.supplied).Nodup := by
    apply List.Nodup.of_map Prod.fst
    rw [List.map_map]
    exact hs.distinct
  have hnd2 : (bodies.map CreateBody.supplied).Nodup := by
    apply List.Nodup.of_map Prod.fst
    rw [List.map_map]
    exact hdistinct
  have hperm : ((st.store.cart_items.filter (fun i => i.cart_id == c._id)).map
      CartItem.supplied).Perm (bodies.map CreateBody.supplied) := by
    rw [List.perm_ext_iff_of_nodup hnd1 hnd2]
    intro x
    constructor
    · intro hx
      rw [List.mem_map] at hx
      obtain ⟨it, hit, hsup⟩ := hx
      rw [List.mem_filter] at hit
      obtain ⟨r, hr, hd⟩ := hs.owned it hit.1 (by simpa using hit.2)
      rw [← hsup, (hs.answered r hr it hd).2.2, ← hs.bodies, List.map_map]
      exact List.mem_map_of_mem (CreateBody.supplied ∘ fun r => r.body) hr
    · intro hx
      rw [← hs.bodies, List.map_map, List.mem_map] at hx
      obtain ⟨r, hr, hsup⟩ := hx
      obtain ⟨it, hd⟩ := hdone r hr
      obtain ⟨a1, a2, a3⟩ := hs.answered r hr it hd
      rw [List.mem_map]
      refine ⟨it, ?_, ?_⟩
      · rw [List.mem_filter]
        exact ⟨a1, by simp [a2]⟩
      · rw [a3]; exact hsup
  refine ⟨hs.cart, hperm, ?_, hs.distinct, hdone⟩
  have := hperm.length_eq
  simpa using this

/-- C10, as amended. Race safety once the cart exists. Take the `exports.create`
calls of a list of requests of one user who has no cart yet, for pairwise
distinct products, with their store calls interleaved in any order in which
one of the calls has its first two store calls (`Cart.findOne` of line 12 and
`Cart.create` of line 17) served before any store call of the others, and
served until every call has ended. Then, with or without a unique index on
`user_id`, every call has ended with an answer, the user has exactly one cart,
and the line items of that cart are, up to order, one per request with the
product, quantity, amount and total amount it supplied: as many as there were
requests, no two for the same product. -/
theorem create_interleaved_distinct (uniqueUser : Bool) (s : Store) (u : Nat)
    (bodies : List CreateBody) (k : Nat) (rest : List Nat)
    (hwf : WellFormed s) (hnew : Cart.findOne s u = none) (hk : k < bodies.length)
    (hsame : ∀ b ∈ bodies, b.user_id = u)
    (hdistinct : (bodies.map (fun b => b.cart_items.product_id)).Nodup)
    (hfin : (Conc.run uniqueUser (Conc.start s bodies) (k :: k :: rest)).calls.all
      (fun r => r.pc.finished) = true) :
    ∃ cart,
      (Conc.run uniqueUser (Conc.start s bodies) (k :: k :: rest)).store.carts.filter
          (fun c => c.user_id == u) = [cart] ∧
      (((Conc.run uniqueUser (Conc.start s bodies) (k :: k :: rest)).store.cart_items.filter
          (fun i => i.cart_id == cart._id)).map CartItem.supplied).Perm
        (bodies.map CreateBody.supplied) ∧
      ((Conc.run uniqueUser (Conc.start s bodies) (k :: k :: rest)).store.cart_items.filter
          (fun i => i.cart_id == cart._id)).length = bodies.length ∧
      (((Conc.run uniqueUser (Conc.start s bodies) (k :: k :: rest)).store.cart_items.filter
          (fun i => i.cart_id == cart._id)).map (fun i => i.product_id)).Nodup ∧
      (∀ r ∈ (Conc.run uniqueUser (Conc.start s bodies) (k :: k :: rest)).calls,
        ∃ it, r.pc = CreatePc.done it) := by
  obtain ⟨b, hb⟩ := get?_of_lt bodies k hk
  have hu : b.user_id = u := hsame b (mem_of_get? bodies k b hb)
  have hsplit : Conc.run uniqueUser (Conc.start s bodies) (k :: k :: rest) =
      Conc.run uniqueUser (Conc.run uniqueUser (Conc.start s bodies) [k, k]) rest := rfl
  rw [hsplit] at hfin ⊢
  have h2 := Conc.settled_first_two uniqueUser s u bodies k b hb hwf hnew hu
  have hs := Conc.run_settled uniqueUser u bodies ⟨s.next_id, u, b.email⟩ hsame hdistinct
    rest _ h2
  exact ⟨⟨s.next_id, u, b.email⟩, hs.outcome hdistinct hfin⟩

theorem create_interleaved_distinct_witness :
    ∃ cart,
      (Conc.run false (Conc.start emptyStore
        [⟨1, "a@b.c", ⟨7, 2, 10, 20, none⟩⟩, ⟨1, "a@b.c", ⟨8, 3, 10, 30, none⟩⟩])
        [0, 0, 1, 0, 1, 0, 1, 1]).store.carts.filter (fun c => c.user_id == 1) = [cart] ∧
      ((Conc.run false (Conc.start emptyStore
        [⟨1, "a@b.c", ⟨7, 2, 10, 20, none⟩⟩, ⟨1, "a@b.c", ⟨8, 3, 10, 30, none⟩⟩])
        [0, 0, 1, 0, 1, 0, 1, 1]).store.cart_items.filter
          (fun i => i.cart_id == cart._id)).length = 2 :=
  (create_interleaved_distinct false emptyStore 1
    [⟨1, "a@b.c", ⟨7, 2, 10, 20, none⟩⟩, ⟨1, "a@b.c", ⟨8, 3, 10, 30, none⟩⟩] 0
    [1, 0, 1, 0, 1, 1]
    (by decide) (by decide) (by decide) (by decide) (by decide) (by decide)).imp
    (fun _ h => ⟨h.1, h.2.2.1⟩)

end CartController
